import Mathlib

/-!
# openbttn WIFI core (`src/wifi.c`): a shallow embedding

Bytes are natural numbers below 256.  An array of the program (`at_buff_space`,
`tmp_buffer`) is the list of its cells; a pointer into an array is an index into that
list and the null pointer is `none`.  A function whose C code would read or write outside
the array it was given, or hand a string without terminator to `strstr`, returns `none`.

The header `wifi.h` is not part of the sources: the values of its enumerators are
parameters of the model (`at_status_t`, `wifi_state_bits`, `wifi_wind_ids`,
`wifi_bttn_ids`).  The ring buffer is not part of the sources either: it is the list of
the queued bytes, oldest first (`ring_buffer_pop`).
-/

namespace OpenBttn

/-! ## Bytes and C strings -/

/-- Carriage return. -/
def CR : Nat := 13

/-- Line feed. -/
def LF : Nat := 10

/-- The literal "\r\nOK\r\n". -/
def STR_OK : List Nat := [13, 10, 79, 75, 13, 10]

/-- The literal "\r\nERROR". -/
def STR_ERROR : List Nat := [13, 10, 69, 82, 82, 79, 82]

/-- The literal "+WIND:". -/
def STR_WIND : List Nat := [43, 87, 73, 78, 68, 58]

/-- The literal "+BTTN:". -/
def STR_BTTN : List Nat := [43, 66, 84, 84, 78, 58]

/-- The literal "HTTP/1.". -/
def STR_HTTP : List Nat := [72, 84, 84, 80, 47, 49, 46]

/-- The C string that starts at the head of `mem`: the bytes before the first NUL.
`none` when `mem` holds no NUL (the string would run off the array). -/
def c_string : List Nat → Option (List Nat)
  | [] => none
  | b :: rest => if b = 0 then some [] else (c_string rest).map (fun s => b :: s)

/-- Offset of the first occurrence of `needle` in `hay`, if any. -/
def find_sub (needle : List Nat) : List Nat → Option Nat
  | [] => if needle.isPrefixOf [] then some 0 else none
  | b :: rest =>
    if needle.isPrefixOf (b :: rest) then some 0
    else (find_sub needle rest).map (fun i => i + 1)

/-- C `strstr (mem + start, needle)`: `none` when there is no terminated string at
`mem + start`; otherwise `some none` for a null result and `some (some i)` for a pointer
to `mem[i]`, the first occurrence. -/
def strstr (mem : List Nat) (start : Nat) (needle : List Nat) : Option (Option Nat) :=
  (c_string (mem.drop start)).map (fun s => (find_sub needle s).map (fun i => i + start))

/-! ## The AT command session -/

/-- Values of the `AT_STATUS_*` enumerators (declared in `wifi.h`). -/
structure at_status_t where
  CLEAR : Nat
  OK : Nat
  ERROR : Nat
  READY : Nat
  FAST_PROCESS : Nat
  deriving DecidableEq, Repr

/-- Result of a processing step: the macros `WIFI_PROCESS_COMPLETE` and
`WIFI_PROCESS_INCOMPLETE` of `wifi.h` (two distinct `bool` values). -/
inductive wifi_process_t where
  | WIFI_PROCESS_COMPLETE
  | WIFI_PROCESS_INCOMPLETE
  deriving DecidableEq, Repr

open wifi_process_t

/-- The struct `wifi_at_t`: status, accumulation buffer, pointer to the last "\r\n"
(an index into `buff`, `none` for the null pointer) and write position. -/
structure wifi_at_t where
  status : Nat
  buff : List Nat
  last_cr_lf : Option Nat
  pos : Nat
  deriving DecidableEq, Repr

/-- Initial value of `wifi_at_state`: `{AT_STATUS_CLEAR, &at_buff_space[0], 0, 0}` over a
zero-filled array of `cap` bytes. -/
def wifi_at_state (c : at_status_t) (cap : Nat) : wifi_at_t :=
  { status := c.CLEAR, buff := List.replicate cap 0, last_cr_lf := none, pos := 0 }

/-- `wifi_at_clear`: zero the first `pos` bytes, reset status, boundary and position. -/
def wifi_at_clear (c : at_status_t) (a : wifi_at_t) : Option wifi_at_t :=
  if a.pos ≤ a.buff.length then
    some { status := c.CLEAR
           buff := List.replicate a.pos 0 ++ a.buff.drop a.pos
           last_cr_lf := none
           pos := 0 }
  else none

/-- `wifi_process_at_response`: store `data`, and at the end of a line look for the
terminators from the previous line boundary on. -/
def wifi_process_at_response (c : at_status_t) (a : wifi_at_t) (data : Nat) :
    Option (wifi_process_t × wifi_at_t) :=
  if a.pos < a.buff.length then
    let buff := a.buff.set a.pos data
    let pos := a.pos + 1
    let a1 : wifi_at_t := { a with buff := buff, pos := pos }
    if data = LF then
      if pos < 2 then none
      else
        match buff[pos - 2]? with
        | none => none
        | some prev =>
          if prev = CR then
            match a.last_cr_lf with
            | some p =>
              match strstr buff p STR_OK with
              | none => none
              | some (some _) =>
                some (WIFI_PROCESS_COMPLETE, { a1 with status := c.OK ||| c.READY })
              | some none =>
                match strstr buff p STR_ERROR with
                | none => none
                | some (some _) =>
                  some (WIFI_PROCESS_COMPLETE, { a1 with status := c.ERROR ||| c.READY })
                | some none =>
                  some (WIFI_PROCESS_INCOMPLETE, { a1 with last_cr_lf := some (pos - 2) })
            | none => some (WIFI_PROCESS_INCOMPLETE, { a1 with last_cr_lf := some (pos - 2) })
          else some (WIFI_PROCESS_INCOMPLETE, a1)
    else some (WIFI_PROCESS_INCOMPLETE, a1)
  else none

/-- Feed the bytes of `input` to `wifi_process_at_response` one at a time, collecting the
value returned for each byte. -/
def at_feed (c : at_status_t) : wifi_at_t → List Nat →
    Option (List wifi_process_t × wifi_at_t)
  | a, [] => some ([], a)
  | a, d :: rest =>
    match wifi_process_at_response c a d with
    | none => none
    | some (r, a1) =>
      match at_feed c a1 rest with
      | none => none
      | some (rs, a2) => some (r :: rs, a2)

/-- A sample assignment of the status bits, for evaluation. -/
def at_status_sample : at_status_t :=
  { CLEAR := 0, OK := 1, ERROR := 2, READY := 4, FAST_PROCESS := 8 }

/-- The flags of `at_status_t` as `wifi.h` must declare them for the tests of `wifi.c`
(`status & AT_STATUS_READY`, `status & AT_STATUS_ERROR`, ...) to tell them apart:
`AT_STATUS_CLEAR` is zero, and OK, ERROR, READY and FAST_PROCESS are pairwise disjoint
masks, OK and ERROR not empty. -/
def at_status_t.flags_distinct (c : at_status_t) : Prop :=
  c.CLEAR = 0 ∧ c.OK ≠ 0 ∧ c.ERROR ≠ 0 ∧
  c.OK &&& c.ERROR = 0 ∧ c.OK &&& c.READY = 0 ∧ c.OK &&& c.FAST_PROCESS = 0 ∧
  c.ERROR &&& c.READY = 0 ∧ c.ERROR &&& c.FAST_PROCESS = 0 ∧ c.FAST_PROCESS &&& c.READY = 0

instance (c : at_status_t) : Decidable c.flags_distinct := by
  unfold at_status_t.flags_distinct; infer_instance

/-- `wifi_at_command_wait` on the session as the tick handler left it: the loop goes on
polling (`none`) while AT_STATUS_READY is clear, and once it is set the function returns
`(status & AT_STATUS_ERROR) == 0`. -/
def wifi_at_command_wait (c : at_status_t) (a : wifi_at_t) : Option Bool :=
  if a.status &&& c.READY = 0 then none
  else some (decide (a.status &&& c.ERROR = 0))

/-- Session states reached from the initial session by steps of
`wifi_process_at_response`, by `wifi_at_clear`, and by the caller's
`status |= AT_STATUS_FAST_PROCESS` (as in `wifi_http_get_request`). -/
inductive at_reachable (c : at_status_t) (cap : Nat) : wifi_at_t → Prop where
  | init : at_reachable c cap (wifi_at_state c cap)
  | step (a a1 : wifi_at_t) (d : Nat) (r : wifi_process_t) :
      at_reachable c cap a → wifi_process_at_response c a d = some (r, a1) →
      at_reachable c cap a1
  | clear (a a1 : wifi_at_t) :
      at_reachable c cap a → wifi_at_clear c a = some a1 → at_reachable c cap a1
  | fast (a : wifi_at_t) :
      at_reachable c cap a →
      at_reachable c cap { a with status := a.status ||| c.FAST_PROCESS }

/-! ## Indications -/

/-- Values of the `wifi_wind_t` enumerators (declared in `wifi.h`). -/
structure wifi_wind_ids where
  wind_power_on : Int
  wind_reset : Int
  wind_console_active : Int
  wind_wifi_associated : Int
  wind_wifi_joined : Int
  wind_wifi_up : Int
  wind_undefined : Int
  deriving DecidableEq, Repr

/-- The case labels of the `switch` of `wifi_process_wind` are pairwise distinct, as C
requires of the labels of one `switch`. -/
def wifi_wind_ids.labels_distinct (w : wifi_wind_ids) : Prop :=
  [w.wind_power_on, w.wind_reset, w.wind_console_active, w.wind_wifi_associated,
    w.wind_wifi_joined, w.wind_wifi_up, w.wind_undefined].Nodup

instance (w : wifi_wind_ids) : Decidable w.labels_distinct := by
  unfold wifi_wind_ids.labels_distinct; infer_instance

/-- Values of the `WIFI_STATE_*` enumerators (declared in `wifi.h`). -/
structure wifi_state_bits where
  WIFI_STATE_OFF : Nat
  WIFI_STATE_POWER_ON : Nat
  WIFI_STATE_CONSOLE_ACTIVE : Nat
  WIFI_STATE_ASSOCIATED : Nat
  WIFI_STATE_JOINED : Nat
  WIFI_STATE_UP : Nat
  deriving DecidableEq, Repr

/-- Values of the `wifi_bttn_t` enumerators (declared in `wifi.h`). -/
structure wifi_bttn_ids where
  bttn_set_url1 : Int
  bttn_undefined : Int
  deriving DecidableEq, Repr

/-- The id decoding that `wifi_process_wind` (for "+WIND:") and
`wifi_process_bttn_indication` (for "+BTTN:") both start with: the value of `n` before
the `switch`.  `n` stays `undefined` when `strstr` finds no token; otherwise the character
after the token is converted, and when the next one is not a colon it is taken as a second
digit.  Characters are unsigned and `n` is computed in `int`. -/
def indication_id (token : List Nat) (undefined : Int) (buff : List Nat) : Option Int :=
  match strstr buff 0 token with
  | none => none
  | some none => some undefined
  | some (some i) =>
    match buff[i + 6]?, buff[i + 7]? with
    | some c1, some c2 =>
      let n : Int := (c1 : Int) - 48
      if c2 ≠ 58 then some (n * 10 + ((c2 : Int) - 48)) else some n
    | _, _ => none

/-- `wifi_process_wind`: the returned flag and the new value of `*state`. -/
def wifi_process_wind (w : wifi_wind_ids) (b : wifi_state_bits) (state : Nat)
    (buff_ptr : List Nat) : Option (Bool × Nat) :=
  match indication_id STR_WIND w.wind_undefined buff_ptr with
  | none => none
  | some n =>
    if n = w.wind_power_on then some (true, b.WIFI_STATE_POWER_ON)
    else if n = w.wind_reset then some (true, b.WIFI_STATE_OFF)
    else if n = w.wind_console_active then some (true, state ||| b.WIFI_STATE_CONSOLE_ACTIVE)
    else if n = w.wind_wifi_associated then some (true, state ||| b.WIFI_STATE_ASSOCIATED)
    else if n = w.wind_wifi_joined then some (true, state ||| b.WIFI_STATE_JOINED)
    else if n = w.wind_wifi_up then some (true, state ||| b.WIFI_STATE_UP)
    else if n = w.wind_undefined then some (false, state)
    else some (true, state)

/-- `wifi_process_bttn_indication`: the returned flag (the `printf` is not modelled). -/
def wifi_process_bttn_indication (k : wifi_bttn_ids) (buff_ptr : List Nat) : Option Bool :=
  match indication_id STR_BTTN k.bttn_undefined buff_ptr with
  | none => none
  | some n =>
    if n = k.bttn_set_url1 then some true
    else if n = k.bttn_undefined then some false
    else some true

/-- Modelled from the spec: `wifi.h`, which declares `wifi_wind_t`, is not among the
sources.  The spec gives "+WIND:6:" as the association indication and "+WIND:11:" as the
power-on indication; the other values are a choice of pairwise distinct ids, used for
evaluation only. -/
def wifi_wind_sample : wifi_wind_ids :=
  { wind_power_on := 11, wind_reset := 2, wind_console_active := 0,
    wind_wifi_associated := 6, wind_wifi_joined := 19, wind_wifi_up := 24,
    wind_undefined := 255 }

/-- A sample assignment of the link state bits (Off is the empty set), for evaluation. -/
def wifi_state_sample : wifi_state_bits :=
  { WIFI_STATE_OFF := 0, WIFI_STATE_POWER_ON := 1, WIFI_STATE_CONSOLE_ACTIVE := 2,
    WIFI_STATE_ASSOCIATED := 4, WIFI_STATE_JOINED := 8, WIFI_STATE_UP := 16 }

/-- A sample assignment of the button ids, for evaluation. -/
def wifi_bttn_sample : wifi_bttn_ids :=
  { bttn_set_url1 := 1, bttn_undefined := 255 }

/-! ## HTTP status -/

/-- C `isspace` in the "C" locale. -/
def is_space (b : Nat) : Bool := b = 32 || (9 ≤ b && b ≤ 13)

/-- C `isdigit`. -/
def is_digit (b : Nat) : Bool := 48 ≤ b && b ≤ 57

/-- The digit loop of `atoi`: stops at the first byte that is not a digit (also at the
end of the memory given).  The value is accumulated without overflow, which an `int`
reaches only after ten digits. -/
def atoi_digits : Int → List Nat → Int
  | acc, [] => acc
  | acc, b :: rest => if is_digit b then atoi_digits (acc * 10 + ((b : Int) - 48)) rest else acc

/-- C `atoi` on the bytes at a pointer: optional white space, optional sign, digits. -/
def atoi (s : List Nat) : Int :=
  match s.dropWhile is_space with
  | [] => 0
  | b :: rest =>
    if b = 45 then - atoi_digits 0 rest
    else if b = 43 then atoi_digits 0 rest
    else atoi_digits 0 (b :: rest)

/-- `wifi_http_parse_status`.  `status_str` is an array of three characters that
`memcpy` fills completely, so `atoi` finds no terminator in it and reads on into the bytes
that follow the array on the stack: these are the parameter `stack`.  The result is
converted to `uint16_t`. -/
def wifi_http_parse_status (response : List Nat) (stack : List Nat) : Option Nat :=
  match strstr response 0 STR_HTTP with
  | none => none
  | some none => some 0
  | some (some i) =>
    match response[i + 9]?, response[i + 10]?, response[i + 11]? with
    | some c1, some c2, some c3 => some ((atoi ([c1, c2, c3] ++ stack) % 65536).toNat)
    | _, _, _ => none

/-- Effect of one `wifi_process_at_response` step read on the bytes received so far
(`xs`, then `d`): the returned value, the new status and the new line boundary. -/
def at_text_step (c : at_status_t) (st : Nat) (l : Option Nat) (xs : List Nat) (d : Nat) :
    wifi_process_t × Nat × Option Nat :=
  if d = LF ∧ xs.getLast? = some CR then
    match l with
    | some p =>
      if (find_sub STR_OK ((xs ++ [d]).drop p)).isSome then
        (WIFI_PROCESS_COMPLETE, c.OK ||| c.READY, l)
      else if (find_sub STR_ERROR ((xs ++ [d]).drop p)).isSome then
        (WIFI_PROCESS_COMPLETE, c.ERROR ||| c.READY, l)
      else (WIFI_PROCESS_INCOMPLETE, st, some (xs.length - 1))
    | none => (WIFI_PROCESS_INCOMPLETE, st, some (xs.length - 1))
  else (WIFI_PROCESS_INCOMPLETE, st, l)

/-- The steps of `at_text_step` over the bytes `ds` received after `xs`. -/
def at_text_run (c : at_status_t) : Nat → Option Nat → List Nat → List Nat →
    List wifi_process_t × Nat × Option Nat
  | st, l, _, [] => ([], st, l)
  | st, l, xs, d :: ds =>
    let r := at_text_step c st l xs d
    let rest := at_text_run c r.2.1 r.2.2 (xs ++ [d]) ds
    (r.1 :: rest.1, rest.2)

/-- The index `pos - 2` at which the end-of-line test of `wifi_process_at_response`
reads `buff`, computed in `int` after the increment of `pos`; `none` when the test stops
at `data == LF` and the buffer is not read. -/
def at_eol_index (a : wifi_at_t) (data : Nat) : Option Int :=
  if data = LF then some (((a.pos + 1 : Nat) : Int) - 2) else none

/-- The end of `wifi_http_get_request`, from the moment `wifi_at_command_wait` returns:
still waiting (`none`) while AT_STATUS_READY is clear, then the parsed status when
AT_STATUS_OK is set and 0 otherwise. -/
def wifi_http_get_request (c : at_status_t) (a : wifi_at_t) (stack : List Nat) :
    Option Nat :=
  if a.status &&& c.READY = 0 then none
  else if a.status &&& c.OK ≠ 0 then wifi_http_parse_status a.buff stack
  else some 0

/-! ## The asynchronous indication parser and the tick handler -/

/-- The static variables `pos` (a `uint16_t`) and `prev` of
`wifi_process_async_response`. -/
structure async_static where
  pos : Nat
  prev : Nat
  deriving DecidableEq, Repr

/-- Initial values of the static variables: `pos = 0`, `prev = NUL`. -/
def async_init : async_static := { pos := 0, prev := 0 }

/-- `wifi_process_async_response`: store `data`, and report the frame complete when more
than two bytes are held and `data` is a line feed after a carriage return. -/
def wifi_process_async_response (buff : List Nat) (st : async_static) (data : Nat) :
    Option (wifi_process_t × List Nat × async_static) :=
  if st.pos < buff.length then
    let buff1 := buff.set st.pos data
    let pos := (st.pos + 1) % 65536
    if 2 < pos ∧ st.prev = CR ∧ data = LF then
      some (WIFI_PROCESS_COMPLETE, buff1, { pos := 0, prev := 0 })
    else some (WIFI_PROCESS_INCOMPLETE, buff1, { pos := pos, prev := data })
  else none

/-- The two values that `wifi.c` gives to `wifi_recv_state`. -/
inductive wifi_recv_t where
  | recv_async_indication
  | recv_at_response
  deriving DecidableEq, Repr

open wifi_recv_t

/-- Modelled from the spec: the ring buffer (`ring_buffer_pop`), whose source is not
among the files.  It is a first-in first-out queue of bytes, here the list of the queued
bytes, oldest first; a pop takes the oldest byte, and on an empty queue it yields NUL,
the value on which `wifi_sys_tick_handler` stops. -/
def ring_buffer_pop (rb : List Nat) : Nat × List Nat :=
  match rb with
  | [] => (0, [])
  | d :: rest => (d, rest)

/-- The global state of `wifi.c`: ring buffer, `tmp_buffer`, the static variables of the
indication parser, `wifi_at_state`, `wifi_state` and `wifi_recv_state`. -/
structure wifi_sys where
  wifi_rb : List Nat
  tmp_buffer : List Nat
  async : async_static
  wifi_at_state : wifi_at_t
  wifi_state : Nat
  wifi_recv_state : wifi_recv_t
  deriving DecidableEq, Repr

/-- The `process_loop` of `wifi_sys_tick_handler` on the queue `rb` (no byte is pushed
meanwhile): the number of pops performed and the state left, `none` after an access
outside an array.  The `printf` calls are not modelled. -/
def wifi_sys_tick_loop (c : at_status_t) (w : wifi_wind_ids) (b : wifi_state_bits)
    (k : wifi_bttn_ids) : List Nat → wifi_sys → Nat × Option wifi_sys
  | [], s => (1, some { s with wifi_rb := [] })
  | d :: rest, s =>
    if d = 0 then (1, some { s with wifi_rb := rest })
    else
      match s.wifi_recv_state with
      | recv_async_indication =>
        match wifi_process_async_response s.tmp_buffer s.async d with
        | none => (1, none)
        | some (WIFI_PROCESS_INCOMPLETE, buff, st) =>
          (1, some { s with wifi_rb := rest, tmp_buffer := buff, async := st })
        | some (WIFI_PROCESS_COMPLETE, buff, st) =>
          match wifi_process_wind w b s.wifi_state buff with
          | none => (1, none)
          | some (is_wind, state) =>
            if is_wind then
              (1, some { s with wifi_rb := rest, tmp_buffer := List.replicate buff.length 0,
                                async := st, wifi_state := state })
            else
              match wifi_process_bttn_indication k buff with
              | none => (1, none)
              | some _ =>
                (1, some { s with wifi_rb := rest, tmp_buffer := List.replicate buff.length 0,
                                  async := st, wifi_state := state })
      | recv_at_response =>
        match wifi_process_at_response c s.wifi_at_state d with
        | none => (1, none)
        | some (WIFI_PROCESS_COMPLETE, a) =>
          (1, some { s with wifi_rb := rest, wifi_at_state := a,
                            wifi_recv_state := recv_async_indication })
        | some (WIFI_PROCESS_INCOMPLETE, a) =>
          if a.status &&& c.FAST_PROCESS ≠ 0 then
            ((wifi_sys_tick_loop c w b k rest { s with wifi_at_state := a }).1 + 1,
             (wifi_sys_tick_loop c w b k rest { s with wifi_at_state := a }).2)
          else (1, some { s with wifi_rb := rest, wifi_at_state := a })

/-- One invocation of `wifi_sys_tick_handler`: the number of pops it performs and the
state it leaves. -/
def wifi_sys_tick_handler (c : at_status_t) (w : wifi_wind_ids) (b : wifi_state_bits)
    (k : wifi_bttn_ids) (s : wifi_sys) : Nat × Option wifi_sys :=
  wifi_sys_tick_loop c w b k s.wifi_rb s

/-- Invoke `wifi_sys_tick_handler` until the queue is empty, at most `n` times. -/
def wifi_sys_drain (c : at_status_t) (w : wifi_wind_ids) (b : wifi_state_bits)
    (k : wifi_bttn_ids) : Nat → wifi_sys → Option wifi_sys
  | 0, s => some s
  | n + 1, s =>
    if s.wifi_rb = [] then some s
    else
      match (wifi_sys_tick_handler c w b k s).2 with
      | none => none
      | some s1 => wifi_sys_drain c w b k n s1

/-- What the handler does with one popped byte `d`, the queue left aside: nothing for
NUL, else one step of the parser that `wifi_recv_state` selects. -/
def wifi_sys_byte (c : at_status_t) (w : wifi_wind_ids) (b : wifi_state_bits)
    (k : wifi_bttn_ids) (s : wifi_sys) (d : Nat) : Option wifi_sys :=
  if d = 0 then some s
  else
    match s.wifi_recv_state with
    | recv_async_indication =>
      match wifi_process_async_response s.tmp_buffer s.async d with
      | none => none
      | some (WIFI_PROCESS_INCOMPLETE, buff, st) =>
        some { s with tmp_buffer := buff, async := st }
      | some (WIFI_PROCESS_COMPLETE, buff, st) =>
        match wifi_process_wind w b s.wifi_state buff with
        | none => none
        | some (is_wind, state) =>
          if is_wind then
            some { s with tmp_buffer := List.replicate buff.length 0, async := st,
                          wifi_state := state }
          else
            match wifi_process_bttn_indication k buff with
            | none => none
            | some _ =>
              some { s with tmp_buffer := List.replicate buff.length 0, async := st,
                            wifi_state := state }
    | recv_at_response =>
      match wifi_process_at_response c s.wifi_at_state d with
      | none => none
      | some (WIFI_PROCESS_COMPLETE, a) =>
        some { s with wifi_at_state := a, wifi_recv_state := recv_async_indication }
      | some (WIFI_PROCESS_INCOMPLETE, a) => some { s with wifi_at_state := a }

/-- The bytes of a list handled one after the other by `wifi_sys_byte`, in order. -/
def wifi_sys_bytes (c : at_status_t) (w : wifi_wind_ids) (b : wifi_state_bits)
    (k : wifi_bttn_ids) : wifi_sys → List Nat → Option wifi_sys
  | s, [] => some s
  | s, d :: rest =>
    match wifi_sys_byte c w b k s d with
    | none => none
    | some s1 => wifi_sys_bytes c w b k s1 rest

/-- The state without the AT_STATUS_FAST_PROCESS information: the session status is
reduced to its Ok, Error and Ready bits. -/
def wifi_sys.outcome (c : at_status_t) (s : wifi_sys) : wifi_sys :=
  { s with wifi_at_state :=
      { s.wifi_at_state with
        status := s.wifi_at_state.status &&& (c.OK ||| c.ERROR ||| c.READY) } }

/-- A sample state, for evaluation: response mode, a cleared session of 16 bytes, and a
queue that holds "\r\nOK\r\n" followed by the frame "\r\n+WIND:6:x\r\n". -/
def wifi_sys_sample : wifi_sys :=
  { wifi_rb := [13, 10, 79, 75, 13, 10, 13, 10, 43, 87, 73, 78, 68, 58, 54, 58, 120, 13, 10]
    tmp_buffer := List.replicate 20 0
    async := async_init
    wifi_at_state := wifi_at_state at_status_sample 16
    wifi_state := 3
    wifi_recv_state := recv_at_response }

/-! ## Theorems: C strings -/

theorem c_string_append_nul (ys rest : List Nat) (h : ∀ x ∈ ys, x ≠ 0) :
    c_string (ys ++ 0 :: rest) = some ys := by
  induction ys with
  | nil => simp [c_string]
  | cons y ys ih =>
    have hy : y ≠ 0 := h y (by simp)
    have ih2 := ih (fun x hx => h x (by simp [hx]))
    simp [c_string, hy, ih2]

theorem strstr_text (ys : List Nat) (k p : Nat) (needle : List Nat)
    (h : ∀ x ∈ ys, x ≠ 0) (hp : p ≤ ys.length) :
    strstr (ys ++ List.replicate (k + 1) 0) p needle
      = some ((find_sub needle (ys.drop p)).map (fun i => i + p)) := by
  unfold strstr
  rw [List.drop_append_of_le_length hp, List.replicate_succ,
    c_string_append_nul _ _ (fun x hx => h x (List.mem_of_mem_drop hx))]
  rfl

theorem set_text (xs : List Nat) (k d : Nat) :
    (xs ++ List.replicate (k + 1) 0).set xs.length d = (xs ++ [d]) ++ List.replicate k 0 := by
  rw [List.set_append_right _ _ (Nat.le_refl _)]
  simp [List.replicate_succ]

theorem prev_text (xs rest : List Nat) (d : Nat) (hx : xs ≠ []) :
    ((xs ++ [d]) ++ rest)[xs.length + 1 - 2]? = xs.getLast? := by
  have hl : 0 < xs.length := List.length_pos.mpr hx
  rw [List.append_assoc, List.getElem?_append_left (by omega), List.getLast?_eq_getElem?]
  congr 1

/-- One step of the code on a session that holds the non-NUL text `xs` followed by
zeros is the step `at_text_step` on that text. -/
theorem at_step_text (c : at_status_t) (st : Nat) (l : Option Nat) (xs : List Nat)
    (k d : Nat) (hxs : ∀ x ∈ xs, x ≠ 0) (hd : d ≠ 0)
    (hl : ∀ p, l = some p → p ≤ xs.length) (h1 : d = LF → xs ≠ []) :
    wifi_process_at_response c
        { status := st, buff := xs ++ List.replicate (k + 2) 0, last_cr_lf := l,
          pos := xs.length } d
      = some ((at_text_step c st l xs d).1,
          { status := (at_text_step c st l xs d).2.1
            buff := (xs ++ [d]) ++ List.replicate (k + 1) 0
            last_cr_lf := (at_text_step c st l xs d).2.2
            pos := xs.length + 1 }) := by
  have hys : ∀ x ∈ xs ++ [d], x ≠ 0 := by
    intro x hx
    rcases List.mem_append.mp hx with h | h
    · exact hxs x h
    · simp at h; omega
  unfold wifi_process_at_response at_text_step
  simp only [List.length_append, List.length_replicate, set_text]
  rw [if_pos (by omega)]
  by_cases hLF : d = LF
  · have hne := h1 hLF
    have hlen : 0 < xs.length := List.length_pos.mpr hne
    rw [if_pos hLF, if_neg (by omega), prev_text xs _ d hne]
    cases hlast : xs.getLast? with
    | none => simp [List.getLast?_eq_none_iff] at hlast; exact absurd hlast hne
    | some pv =>
      by_cases hpv : pv = CR
      · subst hpv
        simp only [if_true, hLF, true_and]
        cases l with
        | none => simp
        | some p =>
          have hp : p ≤ (xs ++ [LF]).length := by
            have := hl p rfl
            simp; omega
          have hys2 : ∀ x ∈ xs ++ [LF], x ≠ 0 := by rw [← hLF]; exact hys
          simp only [strstr_text _ _ _ _ hys2 hp]
          cases h1 : find_sub STR_OK (List.drop p (xs ++ [LF])) with
          | some i => simp
          | none =>
            cases h2 : find_sub STR_ERROR (List.drop p (xs ++ [LF])) with
            | some i => simp
            | none => simp
      · have : ¬ (some pv = some CR) := by simpa using hpv
        simp [hpv, hLF, this]
  · simp [hLF]

theorem at_text_step_boundary (c : at_status_t) (st : Nat) (l : Option Nat)
    (xs : List Nat) (d : Nat) (hl : ∀ p, l = some p → p ≤ xs.length) :
    ∀ p, (at_text_step c st l xs d).2.2 = some p → p ≤ (xs ++ [d]).length := by
  intro p hp
  have key : (at_text_step c st l xs d).2.2 = l ∨
      (at_text_step c st l xs d).2.2 = some (xs.length - 1) := by
    unfold at_text_step
    split
    · split
      · split
        · exact Or.inl rfl
        · split
          · exact Or.inl rfl
          · exact Or.inr rfl
      · exact Or.inr rfl
    · exact Or.inl rfl
  rw [List.length_append, List.length_singleton]
  rcases key with h | h
  · have := hl p (h ▸ hp); omega
  · rw [h] at hp
    have : xs.length - 1 = p := Option.some.inj hp
    omega

/-- Feeding non-NUL bytes to a session that holds the text `xs` followed by enough zeros
runs `at_text_run` on the text. -/
theorem at_feed_text (c : at_status_t) (ds : List Nat) :
    ∀ (st : Nat) (l : Option Nat) (xs : List Nat) (k : Nat),
      (∀ x ∈ xs, x ≠ 0) → (∀ x ∈ ds, x ≠ 0) → (∀ p, l = some p → p ≤ xs.length) →
      (xs = [] → ds.head? ≠ some LF) →
      at_feed c { status := st, buff := xs ++ List.replicate (k + ds.length + 1) 0,
                  last_cr_lf := l, pos := xs.length } ds
        = some ((at_text_run c st l xs ds).1,
            { status := (at_text_run c st l xs ds).2.1
              buff := (xs ++ ds) ++ List.replicate (k + 1) 0
              last_cr_lf := (at_text_run c st l xs ds).2.2
              pos := xs.length + ds.length }) := by
  induction ds with
  | nil => intro st l xs k _ _ _ _; simp [at_feed, at_text_run]
  | cons d ds ih =>
    intro st l xs k hxs hds hl h1
    have hd : d ≠ 0 := hds d (by simp)
    have hxd : ∀ x ∈ xs ++ [d], x ≠ 0 := by
      intro x hx
      rcases List.mem_append.mp hx with h | h
      · exact hxs x h
      · simp at h; omega
    have hstep := at_step_text c st l xs (k + ds.length) d hxs hd hl
      (fun hLF hnil => h1 hnil (by simp [hLF]))
    have hrec := ih (at_text_step c st l xs d).2.1 (at_text_step c st l xs d).2.2
      (xs ++ [d]) k hxd (fun x hx => hds x (by simp [hx]))
      (at_text_step_boundary c st l xs d hl) (by simp)
    have e1 : k + (d :: ds).length + 1 = k + ds.length + 2 := by simp; omega
    have e2 : (xs ++ [d]).length = xs.length + 1 := by simp
    rw [e2] at hrec
    rw [at_feed, e1, hstep]
    simp only [hrec, at_text_run]
    simp
    omega

theorem at_text_step_other (c : at_status_t) (st : Nat) (l : Option Nat) (xs : List Nat)
    (d : Nat) (hd : d ≠ LF) :
    at_text_step c st l xs d = (WIFI_PROCESS_INCOMPLETE, st, l) := by
  simp [at_text_step, hd]

theorem at_text_run_other (c : at_status_t) (ds : List Nat) :
    ∀ (st : Nat) (l : Option Nat) (xs : List Nat), (∀ d ∈ ds, d ≠ LF) →
      at_text_run c st l xs ds
        = (List.replicate ds.length WIFI_PROCESS_INCOMPLETE, st, l) := by
  induction ds with
  | nil => intro st l xs _; rfl
  | cons d ds ih =>
    intro st l xs h
    have hd : d ≠ LF := h d (by simp)
    simp only [at_text_run, at_text_step_other c st l xs d hd,
      ih st l (xs ++ [d]) (fun x hx => h x (by simp [hx]))]
    rfl

theorem at_text_run_append (c : at_status_t) (ds es : List Nat) :
    ∀ (st : Nat) (l : Option Nat) (xs : List Nat),
      at_text_run c st l xs (ds ++ es)
        = ((at_text_run c st l xs ds).1
            ++ (at_text_run c (at_text_run c st l xs ds).2.1 (at_text_run c st l xs ds).2.2
                  (xs ++ ds) es).1,
           (at_text_run c (at_text_run c st l xs ds).2.1 (at_text_run c st l xs ds).2.2
                  (xs ++ ds) es).2) := by
  induction ds with
  | nil => intro st l xs; simp [at_text_run]
  | cons d ds ih =>
    intro st l xs
    have e : xs ++ [d] ++ ds = xs ++ d :: ds := by simp
    simp only [List.cons_append, at_text_run, List.append_eq]
    rw [ih, e]

theorem drop_length_append (L M : List Nat) : (L ++ M).drop L.length = M := by
  simp

theorem at_text_run_ok (c : at_status_t) (st : Nat) (L : List Nat)
    (hL : ∀ x ∈ L, x ≠ CR ∧ x ≠ LF ∧ x ≠ 0) :
    at_text_run c st none [] (L ++ [13, 10, 79, 75, 13, 10])
      = (List.replicate (L.length + 5) WIFI_PROCESS_INCOMPLETE ++ [WIFI_PROCESS_COMPLETE],
          c.OK ||| c.READY, some L.length) := by
  have e : L ++ [13, 10, 79, 75, 13, 10] = (L ++ [13]) ++ ([10] ++ ([79, 75, 13] ++ [10])) := by
    simp
  have h1 : ∀ d ∈ L ++ [13], d ≠ LF := by
    intro d hd
    rcases List.mem_append.mp hd with h | h
    · exact (hL d h).2.1
    · simp at h; simp [h, LF]
  have h2 : ∀ d ∈ [79, 75, 13], d ≠ LF := by
    intro d hd; simp at hd; rcases hd with h | h | h <;> simp [h, LF]
  have d1 : List.drop L.length (L ++ [13, 10, 79, 75, 13, 10]) = [13, 10, 79, 75, 13, 10] :=
    drop_length_append L _
  rw [e, at_text_run_append, at_text_run_other c _ st none [] h1, at_text_run_append,
    at_text_run_append, at_text_run_other c [79, 75, 13] _ _ _ h2]
  simp [at_text_run, at_text_step, LF, CR, d1, find_sub, STR_OK, List.replicate_succ',
    List.replicate_add]

theorem find_sub_skip (n0 : Nat) (ns T rest : List Nat) (hT : ∀ x ∈ T, x ≠ n0) :
    find_sub (n0 :: ns) (T ++ rest)
      = (find_sub (n0 :: ns) rest).map (fun i => i + T.length) := by
  induction T with
  | nil => simp
  | cons t T ih =>
    have ht : ¬ (n0 = t) := fun h => hT t (by simp) h.symm
    have ih2 := ih (fun x hx => hT x (by simp [hx]))
    have hp : (n0 :: ns).isPrefixOf (t :: (T ++ rest)) = false := by
      simp [List.isPrefixOf, ht]
    rw [List.cons_append, find_sub, hp, ih2]
    cases find_sub (n0 :: ns) rest with
    | none => simp
    | some i => simp only [Bool.false_eq_true, if_false, Option.map_some', List.length_cons]; rfl

theorem at_text_run_error (c : at_status_t) (st : Nat) (H T : List Nat)
    (hH : ∀ x ∈ H, x ≠ CR ∧ x ≠ LF ∧ x ≠ 0) (hT : ∀ x ∈ T, x ≠ CR ∧ x ≠ LF ∧ x ≠ 0) :
    at_text_run c st none [] (H ++ [13, 10, 69, 82, 82, 79, 82] ++ T ++ [13, 10])
      = (List.replicate (H.length + T.length + 8) WIFI_PROCESS_INCOMPLETE
            ++ [WIFI_PROCESS_COMPLETE],
          c.ERROR ||| c.READY, some H.length) := by
  have e : H ++ [13, 10, 69, 82, 82, 79, 82] ++ T ++ [13, 10]
      = (H ++ [13]) ++ ([10] ++ (([69, 82, 82, 79, 82] ++ T ++ [13]) ++ [10])) := by
    simp
  have h1 : ∀ d ∈ H ++ [13], d ≠ LF := by
    intro d hd
    rcases List.mem_append.mp hd with h | h
    · exact (hH d h).2.1
    · simp at h; simp [h, LF]
  have h2 : ∀ d ∈ [69, 82, 82, 79, 82] ++ T ++ [13], d ≠ LF := by
    intro d hd
    simp only [List.mem_append, List.mem_cons, List.mem_singleton, List.not_mem_nil,
      or_false] at hd
    rcases hd with (h | h) | h
    · rcases h with h | h | h | h | h <;> simp [h, LF]
    · exact (hT d h).2.1
    · simp [h, LF]
  have h3 : ∀ x ∈ [10, 69, 82, 82, 79, 82] ++ T, x ≠ 13 := by
    intro d hd
    simp only [List.mem_append, List.mem_cons, List.not_mem_nil, or_false] at hd
    rcases hd with h | h
    · rcases h with h | h | h | h | h | h <;> simp [h]
    · exact (hT d h).1
  have d1 : List.drop H.length (H ++ [13, 10, 69, 82, 82, 79, 82] ++ T ++ [13, 10])
      = [13, 10, 69, 82, 82, 79, 82] ++ T ++ [13, 10] := by
    rw [List.append_assoc, List.append_assoc]
    exact drop_length_append H _
  have d2 : List.drop H.length (H ++ 13 :: 10 :: 69 :: 82 :: 82 :: 79 :: 82 :: (T ++ [13, 10]))
      = 13 :: 10 :: 69 :: 82 :: 82 :: 79 :: 82 :: (T ++ [13, 10]) :=
    drop_length_append H _
  have f0 : find_sub STR_OK ([10, 69, 82, 82, 79, 82] ++ T ++ [13, 10]) = none := by
    rw [STR_OK, find_sub_skip 13 _ _ _ h3]
    simp [find_sub]
  have f1 : find_sub STR_OK (13 :: 10 :: 69 :: 82 :: 82 :: 79 :: 82 :: (T ++ [13, 10]))
      = none := by
    have f0b : find_sub STR_OK (10 :: 69 :: 82 :: 82 :: 79 :: 82 :: (T ++ [13, 10])) = none := by
      simpa using f0
    rw [find_sub, f0b]
    simp [STR_OK]
  have f2 : find_sub STR_ERROR (13 :: 10 :: 69 :: 82 :: 82 :: 79 :: 82 :: (T ++ [13, 10]))
      = some 0 := by
    simp [find_sub, STR_ERROR]
  have s1 : at_text_run c st none ([] ++ (H ++ [13])) [10]
      = ([WIFI_PROCESS_INCOMPLETE], st, some H.length) := by
    simp [at_text_run, at_text_step, LF, CR]
  have s2 : at_text_run c st (some H.length)
      ([] ++ (H ++ [13]) ++ [10] ++ ([69, 82, 82, 79, 82] ++ T ++ [13])) [10]
      = ([WIFI_PROCESS_COMPLETE], c.ERROR ||| c.READY, some H.length) := by
    have g : (82 :: (T ++ [13])).getLast? = some 13 := by
      rw [← List.cons_append]; exact List.getLast?_concat _
    simp [at_text_run, at_text_step, LF, CR, d2, f1, f2, g]
  have s3 : List.replicate (H.length + T.length + 8) WIFI_PROCESS_INCOMPLETE
      = List.replicate (H ++ [13]).length WIFI_PROCESS_INCOMPLETE
        ++ ([WIFI_PROCESS_INCOMPLETE]
          ++ List.replicate ([69, 82, 82, 79, 82] ++ T ++ [13]).length
              WIFI_PROCESS_INCOMPLETE) := by
    have e3 : H.length + T.length + 8 = (H ++ [13]).length
        + (1 + ([69, 82, 82, 79, 82] ++ T ++ [13]).length) := by
      simp only [List.length_append, List.length_cons, List.length_nil]; omega
    rw [e3, List.replicate_add, List.replicate_add]
    rfl
  rw [e, at_text_run_append, at_text_run_other c _ st none [] h1, at_text_run_append, s1,
    at_text_run_append, at_text_run_other c _ _ _ _ h2, s2, s3]
  simp only [List.append_assoc]

theorem find_sub_isSome (n h : List Nat) : (find_sub n h).isSome ↔ n <:+: h := by
  induction h with
  | nil =>
    cases n with
    | nil => simp [find_sub, List.isPrefixOf]
    | cons a n => simp [find_sub, List.isPrefixOf]
  | cons b rest ih =>
    rw [List.infix_cons_iff, ← ih, find_sub]
    by_cases hp : n.isPrefixOf (b :: rest) = true
    · have : n <+: b :: rest := List.isPrefixOf_iff_prefix.mp hp
      simp [hp, this]
    · have : ¬ n <+: b :: rest := fun h => hp (List.isPrefixOf_iff_prefix.mpr h)
      simp [hp, this]

theorem or_and_self_left (x y : Nat) : (x ||| y) &&& x = x := by
  apply Nat.eq_of_testBit_eq
  intro i
  simp only [Nat.testBit_and, Nat.testBit_or]
  cases x.testBit i <;> simp

theorem or_and_eq_zero (x y z : Nat) (hx : x &&& z = 0) (hy : y &&& z = 0) :
    (x ||| y) &&& z = 0 := by
  rw [Nat.and_comm, Nat.and_or_distrib_left, Nat.and_comm z x, Nat.and_comm z y, hx, hy]
  rfl

theorem at_step_status (c : at_status_t) (a a1 : wifi_at_t) (d : Nat) (r : wifi_process_t)
    (h : wifi_process_at_response c a d = some (r, a1)) :
    a1.status = a.status ∨ a1.status = c.OK ||| c.READY ∨ a1.status = c.ERROR ||| c.READY := by
  unfold wifi_process_at_response at h
  simp only at h
  repeat' split at h
  all_goals first
    | (cases h; done)
    | (cases h; simp)

theorem at_reachable_status (c : at_status_t) (cap : Nat) (a : wifi_at_t)
    (h : at_reachable c cap a) :
    a.status = c.CLEAR ∨ a.status = c.CLEAR ||| c.FAST_PROCESS ∨
    a.status = c.OK ||| c.READY ∨ a.status = c.OK ||| c.READY ||| c.FAST_PROCESS ∨
    a.status = c.ERROR ||| c.READY ∨ a.status = c.ERROR ||| c.READY ||| c.FAST_PROCESS := by
  induction h with
  | init => exact Or.inl rfl
  | step a a1 d r _ hs ih =>
    rcases at_step_status c a a1 d r hs with h | h | h
    · rw [h]; exact ih
    · exact Or.inr (Or.inr (Or.inl h))
    · exact Or.inr (Or.inr (Or.inr (Or.inr (Or.inl h))))
  | clear a a1 _ hc ih =>
    unfold wifi_at_clear at hc
    split at hc
    · have := Option.some.inj hc
      subst this
      exact Or.inl rfl
    · cases hc
  | fast a _ ih =>
    simp only
    rcases ih with h | h | h | h | h | h
    · rw [h]; exact Or.inr (Or.inl rfl)
    · rw [h, Nat.or_assoc, Nat.or_self]; exact Or.inr (Or.inl rfl)
    · rw [h]; exact Or.inr (Or.inr (Or.inr (Or.inl rfl)))
    · rw [h, Nat.or_assoc, Nat.or_self]; exact Or.inr (Or.inr (Or.inr (Or.inl rfl)))
    · rw [h]; exact Or.inr (Or.inr (Or.inr (Or.inr (Or.inr rfl))))
    · rw [h, Nat.or_assoc, Nat.or_self]; exact Or.inr (Or.inr (Or.inr (Or.inr (Or.inr rfl))))

theorem at_feed_reachable (c : at_status_t) (cap : Nat) (ds : List Nat) :
    ∀ (a a1 : wifi_at_t) (rs : List wifi_process_t), at_reachable c cap a →
      at_feed c a ds = some (rs, a1) → at_reachable c cap a1 := by
  induction ds with
  | nil =>
    intro a a1 rs ha h
    simp only [at_feed, Option.some.injEq, Prod.mk.injEq] at h
    rw [← h.2]; exact ha
  | cons d ds ih =>
    intro a a1 rs ha h
    rw [at_feed] at h
    cases hs : wifi_process_at_response c a d with
    | none => rw [hs] at h; cases h
    | some ra =>
      obtain ⟨r, a2⟩ := ra
      rw [hs] at h
      simp only at h
      cases hf : at_feed c a2 ds with
      | none => rw [hf] at h; cases h
      | some ra2 =>
        obtain ⟨rs2, a3⟩ := ra2
        rw [hf] at h
        simp only [Option.some.injEq, Prod.mk.injEq] at h
        rw [← h.2]
        exact ih a2 a3 rs2 (at_reachable.step a a2 d r ha hs) hf

theorem find_sub_first (n pre tail : List Nat)
    (h : ∀ j, j < pre.length → ¬ n <+: (pre ++ n).drop j) :
    find_sub n (pre ++ (n ++ tail)) = some pre.length := by
  induction pre with
  | nil =>
    cases hn : n ++ tail with
    | nil =>
      have : n = [] := (List.append_eq_nil.mp hn).1
      simp [find_sub, this]
    | cons b rest =>
      have hp : n.isPrefixOf (b :: rest) = true := by
        rw [← hn]; exact List.isPrefixOf_iff_prefix.mpr (List.prefix_append n tail)
      simp [find_sub, hn, hp]
  | cons p pre ih =>
    have h0 : ¬ n <+: p :: (pre ++ (n ++ tail)) := by
      intro hp
      have h1 : p :: (pre ++ n) <+: p :: (pre ++ (n ++ tail)) := by
        rw [← List.cons_append, ← List.cons_append, ← List.append_assoc]
        exact List.prefix_append _ _
      have h2 : n <+: p :: (pre ++ n) :=
        List.prefix_of_prefix_length_le hp h1 (by simp; omega)
      exact h 0 (by simp) (by simpa using h2)
    have hp : n.isPrefixOf (p :: (pre ++ (n ++ tail))) = false := by
      cases hb : n.isPrefixOf (p :: (pre ++ (n ++ tail))) with
      | false => rfl
      | true => exact absurd (List.isPrefixOf_iff_prefix.mp hb) h0
    have ih2 := ih (fun j hj => by
      have := h (j + 1) (by simp; omega)
      simpa using this)
    rw [List.cons_append, find_sub, hp, ih2]
    simp

theorem c_string_text (text junk : List Nat) (h : ∀ x ∈ text, x ≠ 0) :
    c_string (text ++ 0 :: junk) = some text :=
  c_string_append_nul text junk h

theorem strstr_first (n pre tail junk : List Nat)
    (hnz : ∀ x ∈ pre ++ (n ++ tail), x ≠ 0)
    (h : ∀ j, j < pre.length → ¬ n <+: (pre ++ n).drop j) :
    strstr ((pre ++ (n ++ tail)) ++ 0 :: junk) 0 n = some (some pre.length) := by
  unfold strstr
  rw [List.drop_zero, c_string_append_nul _ _ hnz, Option.map_some',
    find_sub_first n pre tail h]
  rfl

theorem strstr_absent (n text junk : List Nat) (hnz : ∀ x ∈ text, x ≠ 0)
    (h : ¬ n <:+: text) : strstr (text ++ 0 :: junk) 0 n = some none := by
  unfold strstr
  rw [List.drop_zero, c_string_append_nul _ _ hnz]
  have : find_sub n text = none := by
    cases hf : find_sub n text with
    | none => rfl
    | some i =>
      have := (find_sub_isSome n text).mp (by rw [hf]; rfl)
      exact absurd this h
  rw [Option.map_some', this]
  rfl

theorem getElem?_after (A B : List Nat) (i : Nat) :
    (A ++ B)[A.length + i]? = B[i]? := by
  rw [List.getElem?_append_right (by omega)]
  congr 1
  omega

theorem c_string_split (mem : List Nat) :
    ∀ text, c_string mem = some text →
      ∃ junk, mem = text ++ 0 :: junk ∧ ∀ x ∈ text, x ≠ 0 := by
  induction mem with
  | nil => intro text h; simp [c_string] at h
  | cons b rest ih =>
    intro text h
    rw [c_string] at h
    by_cases hb : b = 0
    · rw [if_pos hb] at h
      have : text = [] := (Option.some.inj h).symm
      subst this; subst hb
      exact ⟨rest, rfl, by simp⟩
    · rw [if_neg hb] at h
      cases hr : c_string rest with
      | none => rw [hr] at h; simp at h
      | some t =>
        rw [hr] at h
        have : text = b :: t := (Option.some.inj h).symm
        subst this
        obtain ⟨junk, hj, hnz⟩ := ih t hr
        refine ⟨junk, by rw [hj]; rfl, ?_⟩
        intro x hx
        rcases List.mem_cons.mp hx with h1 | h1
        · rw [h1]; exact hb
        · exact hnz x h1

theorem atoi_start (c1 : Nat) (rest : List Nat) (h1 : is_space c1 = false) (h2 : c1 ≠ 45)
    (h3 : c1 ≠ 43) : atoi (c1 :: rest) = atoi_digits 0 (c1 :: rest) := by
  unfold atoi
  rw [List.dropWhile_cons, h1]
  simp [h2, h3]

theorem is_digit_iff (c : Nat) : is_digit c = true ↔ 48 ≤ c ∧ c ≤ 57 := by
  simp [is_digit]

theorem is_digit_start (c : Nat) (h : is_digit c = true) :
    is_space c = false ∧ c ≠ 45 ∧ c ≠ 43 := by
  have := (is_digit_iff c).mp h
  refine ⟨?_, by omega, by omega⟩
  simp [is_space]
  omega

/-- `wifi_http_parse_status` on a buffer whose string holds "HTTP/1." first at the end
of `pre`, followed by two characters and then `c1`, `c2`, `c3`. -/
theorem http_parse_text (pre tail junk stack : List Nat) (v sp c1 c2 c3 : Nat)
    (hnz : ∀ x ∈ pre ++ (STR_HTTP ++ v :: sp :: c1 :: c2 :: c3 :: tail), x ≠ 0)
    (hfirst : ∀ j, j < pre.length → ¬ STR_HTTP <+: (pre ++ STR_HTTP).drop j) :
    wifi_http_parse_status
        ((pre ++ (STR_HTTP ++ v :: sp :: c1 :: c2 :: c3 :: tail)) ++ 0 :: junk) stack
      = some ((atoi ([c1, c2, c3] ++ stack) % 65536).toNat) := by
  unfold wifi_http_parse_status
  rw [strstr_first STR_HTTP pre _ junk hnz hfirst]
  have e : (pre ++ (STR_HTTP ++ v :: sp :: c1 :: c2 :: c3 :: tail)) ++ 0 :: junk
      = (pre ++ STR_HTTP) ++ (v :: sp :: c1 :: c2 :: c3 :: (tail ++ 0 :: junk)) := by simp
  have l9 : pre.length + 9 = (pre ++ STR_HTTP).length + 2 := by simp [STR_HTTP]
  have l10 : pre.length + 10 = (pre ++ STR_HTTP).length + 3 := by simp [STR_HTTP]
  have l11 : pre.length + 11 = (pre ++ STR_HTTP).length + 4 := by simp [STR_HTTP]
  simp only [e]
  rw [l9, l10, l11, getElem?_after, getElem?_after, getElem?_after]
  simp

/-- The status line with three digits, when the byte after `status_str` stops `atoi`. -/
theorem http_status_three_digits (pre tail junk stack : List Nat) (v sp d1 d2 d3 : Nat)
    (h1 : d1 < 10) (h2 : d2 < 10) (h3 : d3 < 10)
    (hnz : ∀ x ∈ pre ++ (STR_HTTP ++ v :: sp :: (48 + d1) :: (48 + d2) :: (48 + d3) :: tail),
      x ≠ 0)
    (hfirst : ∀ j, j < pre.length → ¬ STR_HTTP <+: (pre ++ STR_HTTP).drop j)
    (hstack : ∀ b, stack.head? = some b → is_digit b = false) :
    wifi_http_parse_status
        ((pre ++ (STR_HTTP ++ v :: sp :: (48 + d1) :: (48 + d2) :: (48 + d3) :: tail))
          ++ 0 :: junk) stack
      = some (100 * d1 + 10 * d2 + d3) := by
  rw [http_parse_text pre tail junk stack v sp _ _ _ hnz hfirst]
  have g1 : is_digit (48 + d1) = true := (is_digit_iff _).mpr (by omega)
  have g2 : is_digit (48 + d2) = true := (is_digit_iff _).mpr (by omega)
  have g3 : is_digit (48 + d3) = true := (is_digit_iff _).mpr (by omega)
  obtain ⟨s1, s2, s3⟩ := is_digit_start _ g1
  have hd : atoi_digits (100 * (d1 : Int) + 10 * d2 + d3) stack
      = 100 * (d1 : Int) + 10 * d2 + d3 := by
    cases stack with
    | nil => rfl
    | cons b rest => simp [atoi_digits, hstack b rfl]
  have ha : atoi ([48 + d1, 48 + d2, 48 + d3] ++ stack) = 100 * (d1 : Int) + 10 * d2 + d3 := by
    rw [List.cons_append, atoi_start _ _ s1 s2 s3]
    simp only [List.cons_append, List.nil_append, atoi_digits, g1, g2, g3, if_true]
    rw [← hd]
    congr 1
    push_cast
    ring
  rw [ha]
  congr 1
  omega

/-- A buffer whose string holds no "HTTP/1." gives the status 0. -/
theorem http_status_no_token (response text stack : List Nat)
    (hs : c_string response = some text) (h : ¬ STR_HTTP <:+: text) :
    wifi_http_parse_status response stack = some 0 := by
  obtain ⟨junk, hj, hnz⟩ := c_string_split response text hs
  unfold wifi_http_parse_status
  rw [hj, strstr_absent STR_HTTP text junk hnz h]

/-! ## Theorems: the response terminators -/

/-- C1: a body line `L` without CR, LF or NUL followed by "\r\nOK\r\n", fed byte by
byte to a cleared zero-filled session with room for it, gives WIFI_PROCESS_INCOMPLETE on
every byte before the last one (so also on the first CRLF) and WIFI_PROCESS_COMPLETE on
the final line feed, which leaves the status AT_STATUS_OK | AT_STATUS_READY. -/
theorem C1_ok_after_second_crlf (c : at_status_t) (cap : Nat) (L : List Nat)
    (hL : ∀ x ∈ L, x ≠ CR ∧ x ≠ LF ∧ x ≠ 0) (hcap : L.length + 6 < cap) :
    at_feed c (wifi_at_state c cap) (L ++ [13, 10, 79, 75, 13, 10])
      = some (List.replicate (L.length + 5) WIFI_PROCESS_INCOMPLETE ++ [WIFI_PROCESS_COMPLETE],
          { status := c.OK ||| c.READY
            buff := L ++ [13, 10, 79, 75, 13, 10] ++ List.replicate (cap - (L.length + 6)) 0
            last_cr_lf := some L.length
            pos := L.length + 6 }) := by
  obtain ⟨k, rfl⟩ : ∃ k, cap = k + (L ++ [13, 10, 79, 75, 13, 10]).length + 1 :=
    ⟨cap - (L.length + 7), by
      simp only [List.length_append, List.length_cons, List.length_nil]; omega⟩
  have hds : ∀ x ∈ L ++ [13, 10, 79, 75, 13, 10], x ≠ 0 := by
    intro x hx
    rcases List.mem_append.mp hx with h | h
    · exact (hL x h).2.2
    · simp at h; omega
  have hhead : (L ++ [13, 10, 79, 75, 13, 10]).head? ≠ some LF := by
    cases L with
    | nil => simp [LF]
    | cons x L => simpa using (hL x (by simp)).2.1
  have h := at_feed_text c (L ++ [13, 10, 79, 75, 13, 10]) c.CLEAR none [] k (by simp) hds
    (by simp) (fun _ => hhead)
  simp only [List.nil_append, List.length_nil, Nat.zero_add, at_text_run_ok c _ L hL] at h
  have e : k + (L ++ [13, 10, 79, 75, 13, 10]).length + 1 - (L.length + 6) = k + 1 := by
    simp only [List.length_append, List.length_cons, List.length_nil]; omega
  rw [e]
  simpa [wifi_at_state] using h

theorem C1_ok_after_second_crlf_witness :
    (∀ x ∈ [108, 105, 110, 101, 49], x ≠ CR ∧ x ≠ LF ∧ x ≠ 0) ∧
    [108, 105, 110, 101, 49].length + 6 < 16 ∧
    at_feed at_status_sample (wifi_at_state at_status_sample 16)
        ([108, 105, 110, 101, 49] ++ [13, 10, 79, 75, 13, 10])
      = some (List.replicate ([108, 105, 110, 101, 49].length + 5) WIFI_PROCESS_INCOMPLETE
            ++ [WIFI_PROCESS_COMPLETE],
          { status := at_status_sample.OK ||| at_status_sample.READY
            buff := [108, 105, 110, 101, 49] ++ [13, 10, 79, 75, 13, 10]
              ++ List.replicate (16 - ([108, 105, 110, 101, 49].length + 6)) 0
            last_cr_lf := some [108, 105, 110, 101, 49].length
            pos := [108, 105, 110, 101, 49].length + 6 }) :=
  ⟨by decide, by decide,
    C1_ok_after_second_crlf at_status_sample 16 [108, 105, 110, 101, 49] (by decide)
      (by decide)⟩

/-- C2: a header line `H` and a trailing text `T` without CR, LF or NUL: feeding
`H`, "\r\nERROR", `T`, "\r\n" byte by byte to a cleared zero-filled session with
room for it ends, on the last byte, with WIFI_PROCESS_COMPLETE and the status
AT_STATUS_ERROR | AT_STATUS_READY, whatever `T` is. -/
theorem C2_error_any_trailing_text (c : at_status_t) (cap : Nat) (H T : List Nat)
    (hH : ∀ x ∈ H, x ≠ CR ∧ x ≠ LF ∧ x ≠ 0) (hT : ∀ x ∈ T, x ≠ CR ∧ x ≠ LF ∧ x ≠ 0)
    (hcap : H.length + T.length + 9 < cap) :
    at_feed c (wifi_at_state c cap) (H ++ [13, 10, 69, 82, 82, 79, 82] ++ T ++ [13, 10])
      = some (List.replicate (H.length + T.length + 8) WIFI_PROCESS_INCOMPLETE
            ++ [WIFI_PROCESS_COMPLETE],
          { status := c.ERROR ||| c.READY
            buff := H ++ [13, 10, 69, 82, 82, 79, 82] ++ T ++ [13, 10]
              ++ List.replicate (cap - (H.length + T.length + 9)) 0
            last_cr_lf := some H.length
            pos := H.length + T.length + 9 }) := by
  obtain ⟨k, rfl⟩ : ∃ k,
      cap = k + (H ++ [13, 10, 69, 82, 82, 79, 82] ++ T ++ [13, 10]).length + 1 :=
    ⟨cap - (H.length + T.length + 10), by
      simp only [List.length_append, List.length_cons, List.length_nil]; omega⟩
  have hds : ∀ x ∈ H ++ [13, 10, 69, 82, 82, 79, 82] ++ T ++ [13, 10], x ≠ 0 := by
    intro x hx
    simp only [List.mem_append] at hx
    rcases hx with ((h | h) | h) | h
    · exact (hH x h).2.2
    · simp at h; omega
    · exact (hT x h).2.2
    · simp at h; omega
  have hhead : (H ++ [13, 10, 69, 82, 82, 79, 82] ++ T ++ [13, 10]).head? ≠ some LF := by
    cases H with
    | nil => simp [LF]
    | cons x H => simpa using (hH x (by simp)).2.1
  have h := at_feed_text c (H ++ [13, 10, 69, 82, 82, 79, 82] ++ T ++ [13, 10]) c.CLEAR none []
    k (by simp) hds (by simp) (fun _ => hhead)
  simp only [List.nil_append, List.length_nil, Nat.zero_add,
    at_text_run_error c _ H T hH hT] at h
  have e : k + (H ++ [13, 10, 69, 82, 82, 79, 82] ++ T ++ [13, 10]).length + 1
      - (H.length + T.length + 9) = k + 1 := by
    simp only [List.length_append, List.length_cons, List.length_nil]; omega
  have e2 : (H ++ [13, 10, 69, 82, 82, 79, 82] ++ T ++ [13, 10]).length
      = H.length + T.length + 9 := by
    simp only [List.length_append, List.length_cons, List.length_nil]; omega
  rw [e]
  rw [e2] at h
  simpa [wifi_at_state] using h

theorem C2_error_any_trailing_text_witness :
    (∀ x ∈ [43, 83, 46, 72, 84, 84, 80, 71, 69, 84], x ≠ CR ∧ x ≠ LF ∧ x ≠ 0) ∧
    (∀ x ∈ [58, 83, 79, 77, 69, 32, 82, 69, 65, 83, 79, 78], x ≠ CR ∧ x ≠ LF ∧ x ≠ 0) ∧
    [43, 83, 46, 72, 84, 84, 80, 71, 69, 84].length
        + [58, 83, 79, 77, 69, 32, 82, 69, 65, 83, 79, 78].length + 9 < 40 ∧
    at_feed at_status_sample (wifi_at_state at_status_sample 40)
        ([43, 83, 46, 72, 84, 84, 80, 71, 69, 84] ++ [13, 10, 69, 82, 82, 79, 82]
          ++ [58, 83, 79, 77, 69, 32, 82, 69, 65, 83, 79, 78] ++ [13, 10])
      = some (List.replicate ([43, 83, 46, 72, 84, 84, 80, 71, 69, 84].length
              + [58, 83, 79, 77, 69, 32, 82, 69, 65, 83, 79, 78].length + 8)
              WIFI_PROCESS_INCOMPLETE ++ [WIFI_PROCESS_COMPLETE],
          { status := at_status_sample.ERROR ||| at_status_sample.READY
            buff := [43, 83, 46, 72, 84, 84, 80, 71, 69, 84] ++ [13, 10, 69, 82, 82, 79, 82]
              ++ [58, 83, 79, 77, 69, 32, 82, 69, 65, 83, 79, 78] ++ [13, 10]
              ++ List.replicate (40 - ([43, 83, 46, 72, 84, 84, 80, 71, 69, 84].length
                  + [58, 83, 79, 77, 69, 32, 82, 69, 65, 83, 79, 78].length + 9)) 0
            last_cr_lf := some [43, 83, 46, 72, 84, 84, 80, 71, 69, 84].length
            pos := [43, 83, 46, 72, 84, 84, 80, 71, 69, 84].length
              + [58, 83, 79, 77, 69, 32, 82, 69, 65, 83, 79, 78].length + 9 }) :=
  ⟨by decide, by decide, by decide,
    C2_error_any_trailing_text at_status_sample 40 [43, 83, 46, 72, 84, 84, 80, 71, 69, 84]
      [58, 83, 79, 77, 69, 32, 82, 69, 65, 83, 79, 78] (by decide) (by decide) (by decide)⟩

/-- C4: when the id that `wifi_process_wind` decodes from the buffer is one of the six
handled ids, the function returns true and the state becomes WIFI_STATE_POWER_ON for the
power-on id and WIFI_STATE_OFF for the reset id, whatever the prior state `s`, and
`s | WIFI_STATE_CONSOLE_ACTIVE`, `s | WIFI_STATE_ASSOCIATED`, `s | WIFI_STATE_JOINED`,
`s | WIFI_STATE_UP` for the console-active, associated, joined and up ids. -/
theorem C4_wind_state_mapping (w : wifi_wind_ids) (b : wifi_state_bits) (s : Nat)
    (buff : List Nat) (n : Int) (hw : w.labels_distinct)
    (hn : indication_id STR_WIND w.wind_undefined buff = some n) :
    (n = w.wind_power_on →
      wifi_process_wind w b s buff = some (true, b.WIFI_STATE_POWER_ON)) ∧
    (n = w.wind_reset →
      wifi_process_wind w b s buff = some (true, b.WIFI_STATE_OFF)) ∧
    (n = w.wind_console_active →
      wifi_process_wind w b s buff = some (true, s ||| b.WIFI_STATE_CONSOLE_ACTIVE)) ∧
    (n = w.wind_wifi_associated →
      wifi_process_wind w b s buff = some (true, s ||| b.WIFI_STATE_ASSOCIATED)) ∧
    (n = w.wind_wifi_joined →
      wifi_process_wind w b s buff = some (true, s ||| b.WIFI_STATE_JOINED)) ∧
    (n = w.wind_wifi_up →
      wifi_process_wind w b s buff = some (true, s ||| b.WIFI_STATE_UP)) := by
  simp only [wifi_wind_ids.labels_distinct, List.nodup_cons, List.mem_cons, List.mem_singleton,
    List.not_mem_nil, not_or, or_false, List.nodup_nil, not_false_eq_true, and_true] at hw
  obtain ⟨⟨h12, h13, h14, h15, h16, h17⟩, ⟨h23, h24, h25, h26, h27⟩, ⟨h34, h35, h36, h37⟩,
    ⟨h45, h46, h47⟩, ⟨h56, h57⟩, h67⟩ := hw
  unfold wifi_process_wind
  rw [hn]
  refine ⟨?_, ?_, ?_, ?_, ?_, ?_⟩ <;> intro h <;> subst h
  · simp
  · simp [Ne.symm h12]
  · simp [Ne.symm h13, Ne.symm h23]
  · simp [Ne.symm h14, Ne.symm h24, Ne.symm h34]
  · simp [Ne.symm h15, Ne.symm h25, Ne.symm h35, Ne.symm h45]
  · simp [Ne.symm h16, Ne.symm h26, Ne.symm h36, Ne.symm h46, Ne.symm h56]

theorem C4_wind_state_mapping_witness :
    (wifi_wind_sample.labels_distinct ∧
      indication_id STR_WIND wifi_wind_sample.wind_undefined
        [13, 10, 43, 87, 73, 78, 68, 58, 54, 58, 120, 13, 10, 0, 0, 0] = some 6 ∧
      (6 : Int) = wifi_wind_sample.wind_wifi_associated) ∧
    wifi_process_wind wifi_wind_sample wifi_state_sample 3
        [13, 10, 43, 87, 73, 78, 68, 58, 54, 58, 120, 13, 10, 0, 0, 0]
      = some (true, 3 ||| wifi_state_sample.WIFI_STATE_ASSOCIATED) :=
  ⟨⟨by decide, by decide, by decide⟩,
    (C4_wind_state_mapping wifi_wind_sample wifi_state_sample 3
      [13, 10, 43, 87, 73, 78, 68, 58, 54, 58, 120, 13, 10, 0, 0, 0] 6 (by decide)
      (by decide)).2.2.2.1 (by decide)⟩

/-- C8, at the response "HTTP/1.0 200 OK": `atoi` is given the three status characters
without a terminator, so the value returned depends on the byte that follows `status_str`
on the stack: 200 when that byte is NUL, 2005 when it is the character 5. -/
theorem C8_status_depends_on_stack :
    wifi_http_parse_status
        [72, 84, 84, 80, 47, 49, 46, 48, 32, 50, 48, 48, 32, 79, 75, 0, 0, 0] [0]
      = some 200 ∧
    wifi_http_parse_status
        [72, 84, 84, 80, 47, 49, 46, 48, 32, 50, 48, 48, 32, 79, 75, 0, 0, 0] [53]
      = some 2005 := by
  decide

/-- C9, as the code has it: for a buffer whose first "HTTP/1." is followed by two
characters and then `c1`, `c2`, `c3` (offsets 9 to 11), the function returns 0 when `c1`
is neither a digit nor white space nor a sign, the value of the digit `c1` when `c2` is
not a digit, and the two-digit value of `c1`, `c2` when `c3` is not a digit. -/
theorem C9_status_of_short_code (pre tail junk stack : List Nat) (v sp c1 c2 c3 : Nat)
    (hnz : ∀ x ∈ pre ++ (STR_HTTP ++ v :: sp :: c1 :: c2 :: c3 :: tail), x ≠ 0)
    (hfirst : ∀ j, j < pre.length → ¬ STR_HTTP <+: (pre ++ STR_HTTP).drop j) :
    (is_digit c1 = false → is_space c1 = false → c1 ≠ 45 → c1 ≠ 43 →
      wifi_http_parse_status
          ((pre ++ (STR_HTTP ++ v :: sp :: c1 :: c2 :: c3 :: tail)) ++ 0 :: junk) stack
        = some 0) ∧
    (is_digit c1 = true → is_digit c2 = false →
      wifi_http_parse_status
          ((pre ++ (STR_HTTP ++ v :: sp :: c1 :: c2 :: c3 :: tail)) ++ 0 :: junk) stack
        = some (c1 - 48)) ∧
    (is_digit c1 = true → is_digit c2 = true → is_digit c3 = false →
      wifi_http_parse_status
          ((pre ++ (STR_HTTP ++ v :: sp :: c1 :: c2 :: c3 :: tail)) ++ 0 :: junk) stack
        = some (10 * (c1 - 48) + (c2 - 48))) := by
  rw [http_parse_text pre tail junk stack v sp c1 c2 c3 hnz hfirst]
  refine ⟨?_, ?_, ?_⟩
  · intro g1 s1 s2 s3
    rw [List.cons_append, atoi_start _ _ s1 s2 s3]
    simp [atoi_digits, g1]
  · intro g1 g2
    obtain ⟨s1, s2, s3⟩ := is_digit_start _ g1
    have b1 := (is_digit_iff c1).mp g1
    rw [List.cons_append, atoi_start _ _ s1 s2 s3]
    simp only [List.cons_append, List.nil_append, atoi_digits, g1, g2, if_true,
      Bool.false_eq_true, if_false]
    congr 1
    omega
  · intro g1 g2 g3
    obtain ⟨s1, s2, s3⟩ := is_digit_start _ g1
    have b1 := (is_digit_iff c1).mp g1
    have b2 := (is_digit_iff c2).mp g2
    rw [List.cons_append, atoi_start _ _ s1 s2 s3]
    simp only [List.cons_append, List.nil_append, atoi_digits, g1, g2, g3, if_true,
      Bool.false_eq_true, if_false]
    congr 1
    omega

theorem C9_status_of_short_code_witness :
    ((∀ x ∈ [] ++ (STR_HTTP ++ 48 :: 32 :: 50 :: 48 :: 32 :: [79, 75]), x ≠ 0) ∧
      (∀ j, j < ([] : List Nat).length → ¬ STR_HTTP <+: ([] ++ STR_HTTP).drop j) ∧
      is_digit 50 = true ∧ is_digit 48 = true ∧ is_digit 32 = false) ∧
    wifi_http_parse_status
        (([] ++ (STR_HTTP ++ 48 :: 32 :: 50 :: 48 :: 32 :: [79, 75])) ++ 0 :: [0, 0]) [53]
      = some (10 * (50 - 48) + (48 - 48)) :=
  ⟨⟨by decide, by decide, by decide, by decide, by decide⟩,
    (C9_status_of_short_code [] [79, 75] [0, 0] [53] 48 32 50 48 32 (by decide)
      (by decide)).2.2 (by decide) (by decide) (by decide)⟩

/-- C9, the claim as written, fails: in "HTTP/1.0 20 OK" the characters at offsets 9 to
11 are "20 ", which are not three digits, and the function returns 20 whatever follows
`status_str` on the stack: neither 0 nor a status between 100 and 999. -/
theorem C9_counterexample :
    (∀ stack : List Nat,
      wifi_http_parse_status
          [72, 84, 84, 80, 47, 49, 46, 48, 32, 50, 48, 32, 79, 75, 0, 0, 0] stack
        = some 20) ∧
    is_digit 32 = false ∧ (20 : Nat) ≠ 0 ∧ ¬ (100 ≤ (20 : Nat) ∧ (20 : Nat) ≤ 999) :=
  ⟨fun _ => rfl, by decide, by decide, by decide⟩

/-! ## Theorems: waiting for completion -/

/-- C10: in every session state reached from the initial session by steps of
`wifi_process_at_response` (and by `wifi_at_clear`, and by the caller or-ing
AT_STATUS_FAST_PROCESS into the status) in which AT_STATUS_READY is set, exactly one of
AT_STATUS_OK and AT_STATUS_ERROR is set, and `wifi_at_command_wait` returns true exactly
when AT_STATUS_OK is set.  The flag values are those of a header that keeps the flags
apart. -/
theorem C10_ready_has_one_outcome (c : at_status_t) (cap : Nat) (a : wifi_at_t)
    (hc : c.flags_distinct) (hr : at_reachable c cap a) (hready : a.status &&& c.READY ≠ 0) :
    ((a.status &&& c.OK ≠ 0 ∧ a.status &&& c.ERROR = 0) ∨
      (a.status &&& c.OK = 0 ∧ a.status &&& c.ERROR ≠ 0)) ∧
    wifi_at_command_wait c a = some (decide (a.status &&& c.OK ≠ 0)) := by
  obtain ⟨h0, hok, herr, hoe, hor, hof, her, hef, hfr⟩ := hc
  have heo : c.ERROR &&& c.OK = 0 := by rw [Nat.and_comm]; exact hoe
  have hre : c.READY &&& c.ERROR = 0 := by rw [Nat.and_comm]; exact her
  have hro : c.READY &&& c.OK = 0 := by rw [Nat.and_comm]; exact hor
  have hfe : c.FAST_PROCESS &&& c.ERROR = 0 := by rw [Nat.and_comm]; exact hef
  have hfo : c.FAST_PROCESS &&& c.OK = 0 := by rw [Nat.and_comm]; exact hof
  have key : (a.status &&& c.OK ≠ 0 ∧ a.status &&& c.ERROR = 0) ∨
      (a.status &&& c.OK = 0 ∧ a.status &&& c.ERROR ≠ 0) := by
    rcases at_reachable_status c cap a hr with h | h | h | h | h | h
    · rw [h, h0] at hready; simp at hready
    · rw [h, h0, Nat.zero_or] at hready; exact absurd hfr hready
    · rw [h]
      exact Or.inl ⟨by rw [or_and_self_left]; exact hok, or_and_eq_zero _ _ _ hoe hre⟩
    · rw [h, Nat.or_assoc]
      exact Or.inl ⟨by rw [or_and_self_left]; exact hok,
        or_and_eq_zero _ _ _ hoe (or_and_eq_zero _ _ _ hre hfe)⟩
    · rw [h]
      exact Or.inr ⟨or_and_eq_zero _ _ _ heo hro, by rw [or_and_self_left]; exact herr⟩
    · rw [h, Nat.or_assoc]
      exact Or.inr ⟨or_and_eq_zero _ _ _ heo (or_and_eq_zero _ _ _ hro hfo),
        by rw [or_and_self_left]; exact herr⟩
  refine ⟨key, ?_⟩
  unfold wifi_at_command_wait
  rw [if_neg hready]
  rcases key with ⟨h1, h2⟩ | ⟨h1, h2⟩
  · simp [h1, h2]
  · simp [h1, h2]

theorem C10_ready_has_one_outcome_witness :
    (at_status_sample.flags_distinct ∧
      at_reachable at_status_sample 16
        { status := 5, buff := [13, 10, 79, 75, 13, 10, 0, 0, 0, 0, 0, 0, 0, 0, 0, 0],
          last_cr_lf := some 0, pos := 6 } ∧
      (5 : Nat) &&& at_status_sample.READY ≠ 0) ∧
    (((5 : Nat) &&& at_status_sample.OK ≠ 0 ∧ (5 : Nat) &&& at_status_sample.ERROR = 0) ∨
      ((5 : Nat) &&& at_status_sample.OK = 0 ∧ (5 : Nat) &&& at_status_sample.ERROR ≠ 0)) ∧
    wifi_at_command_wait at_status_sample
        { status := 5, buff := [13, 10, 79, 75, 13, 10, 0, 0, 0, 0, 0, 0, 0, 0, 0, 0],
          last_cr_lf := some 0, pos := 6 }
      = some (decide ((5 : Nat) &&& at_status_sample.OK ≠ 0)) :=
  have hreach : at_reachable at_status_sample 16
      { status := 5, buff := [13, 10, 79, 75, 13, 10, 0, 0, 0, 0, 0, 0, 0, 0, 0, 0],
        last_cr_lf := some 0, pos := 6 } :=
    at_feed_reachable at_status_sample 16 [13, 10, 79, 75, 13, 10] _ _
      (List.replicate 5 WIFI_PROCESS_INCOMPLETE ++ [WIFI_PROCESS_COMPLETE])
      at_reachable.init rfl
  ⟨⟨by decide, hreach, by decide⟩,
    C10_ready_has_one_outcome at_status_sample 16 _ (by decide) hreach (by decide)⟩

/-! ## Theorems: clearing the session -/

theorem zero_tail_eq (l : List Nat) (h : ∀ x ∈ l, x = 0) : l = List.replicate l.length 0 :=
  List.eq_replicate_iff.mpr ⟨rfl, h⟩

theorem at_clear_zero_tail (c : at_status_t) (a : wifi_at_t) (hpos : a.pos ≤ a.buff.length)
    (htail : ∀ x ∈ a.buff.drop a.pos, x = 0) :
    wifi_at_clear c a
      = some { status := c.CLEAR, buff := List.replicate a.buff.length 0,
               last_cr_lf := none, pos := 0 } := by
  unfold wifi_at_clear
  rw [if_pos hpos, zero_tail_eq _ htail, ← List.replicate_add, List.length_drop]
  have e : a.pos + (a.buff.length - a.pos) = a.buff.length := by omega
  rw [e]

/-- The invariant of the session states: the buffer keeps its length, `pos` lies within
it and every byte from `pos` on is zero. -/
theorem at_reachable_zero_tail (c : at_status_t) (cap : Nat) (a : wifi_at_t)
    (h : at_reachable c cap a) :
    a.buff.length = cap ∧ a.pos ≤ cap ∧ ∀ x ∈ a.buff.drop a.pos, x = 0 := by
  induction h with
  | init =>
    refine ⟨by simp [wifi_at_state], by simp [wifi_at_state], ?_⟩
    intro x hx
    simp only [wifi_at_state, List.drop_zero] at hx
    exact (List.mem_replicate.mp hx).2
  | step a a1 d r _ hs ih =>
    obtain ⟨hlen, hpos, htail⟩ := ih
    have key : a.pos < a.buff.length ∧ a1.buff = a.buff.set a.pos d ∧ a1.pos = a.pos + 1 := by
      unfold wifi_process_at_response at hs
      by_cases hlt : a.pos < a.buff.length
      · refine ⟨hlt, ?_⟩
        rw [if_pos hlt] at hs
        simp only at hs
        repeat' split at hs
        all_goals first
          | (cases hs; done)
          | (cases hs; exact ⟨rfl, rfl⟩)
      · rw [if_neg hlt] at hs; cases hs
    obtain ⟨hlt, hb, hp⟩ := key
    refine ⟨by rw [hb, List.length_set]; exact hlen, by omega, ?_⟩
    intro x hx
    rw [hb, hp, List.drop_set_of_lt _ _ (by omega)] at hx
    exact htail x (List.mem_of_mem_drop (by
      have : List.drop (a.pos + 1) a.buff = List.drop 1 (List.drop a.pos a.buff) := by
        rw [List.drop_drop]
      rw [this] at hx; exact hx))
  | clear a a1 _ hc ih =>
    obtain ⟨hlen, hpos, htail⟩ := ih
    have h2 := at_clear_zero_tail c a (by omega) htail
    rw [h2] at hc
    have := Option.some.inj hc
    subst this
    refine ⟨by simp [hlen], by simp, ?_⟩
    intro x hx
    simp only [List.drop_zero] at hx
    exact (List.mem_replicate.mp hx).2
  | fast a _ ih => exact ih

/-- C19: in every state reached from the initial session by steps of
`wifi_process_at_response` that stay within the buffer and by calls of `wifi_at_clear`,
every byte of the buffer at an index from `pos` on is zero.  Hence `wifi_at_clear` leaves
the whole buffer zero, and the string scanned from a boundary `p` ends exactly at `pos`
when the bytes received since `p` hold no NUL and the buffer is not full. -/
theorem C19_zero_tail (c : at_status_t) (cap : Nat) (a : wifi_at_t)
    (h : at_reachable c cap a) :
    a.buff.length = cap ∧ a.pos ≤ cap ∧
    (∀ i, a.pos ≤ i → i < cap → a.buff[i]? = some 0) ∧
    wifi_at_clear c a
      = some { status := c.CLEAR, buff := List.replicate cap 0, last_cr_lf := none, pos := 0 } ∧
    (∀ p, p ≤ a.pos → a.pos < cap → (∀ x ∈ (a.buff.take a.pos).drop p, x ≠ 0) →
      c_string (a.buff.drop p) = some ((a.buff.take a.pos).drop p)) := by
  obtain ⟨hlen, hpos, htail⟩ := at_reachable_zero_tail c cap a h
  refine ⟨hlen, hpos, ?_, ?_, ?_⟩
  · intro i hi hic
    have hi2 : i < a.buff.length := by omega
    have hget : (a.buff.drop a.pos)[i - a.pos]? = a.buff[i]? := by
      rw [List.getElem?_drop]; congr 1; omega
    cases hv : a.buff[i]? with
    | none => have := List.getElem?_eq_none_iff.mp hv; omega
    | some v =>
      rw [hv] at hget
      rw [htail v (List.getElem?_mem hget)]
  · have := at_clear_zero_tail c a (by omega) htail
    rw [hlen] at this
    exact this
  · intro p hp hlt hnz
    have hsplit : a.buff = a.buff.take a.pos ++ a.buff.drop a.pos :=
      (List.take_append_drop a.pos a.buff).symm
    have hz : a.buff.drop a.pos = 0 :: List.replicate (cap - a.pos - 1) 0 := by
      rw [zero_tail_eq _ htail, List.length_drop, hlen, ← List.replicate_succ]
      congr 1; omega
    have htl : (a.buff.take a.pos).length = a.pos := by
      rw [List.length_take]; omega
    have e : a.buff.drop p = (a.buff.take a.pos).drop p ++ 0 :: List.replicate (cap - a.pos - 1) 0 := by
      conv_lhs => rw [hsplit]
      rw [List.drop_append_of_le_length (by omega), hz]
    rw [e]
    exact c_string_append_nul _ _ hnz

theorem C19_zero_tail_witness :
    at_reachable at_status_sample 16
        { status := 5, buff := [13, 10, 79, 75, 13, 10, 0, 0, 0, 0, 0, 0, 0, 0, 0, 0],
          last_cr_lf := some 0, pos := 6 } ∧
    ([13, 10, 79, 75, 13, 10, 0, 0, 0, 0, 0, 0, 0, 0, 0, 0] : List Nat).length = 16 ∧
    (6 : Nat) ≤ 16 ∧
    (∀ i, 6 ≤ i → i < 16 →
      ([13, 10, 79, 75, 13, 10, 0, 0, 0, 0, 0, 0, 0, 0, 0, 0] : List Nat)[i]? = some 0) ∧
    wifi_at_clear at_status_sample
        { status := 5, buff := [13, 10, 79, 75, 13, 10, 0, 0, 0, 0, 0, 0, 0, 0, 0, 0],
          last_cr_lf := some 0, pos := 6 }
      = some { status := at_status_sample.CLEAR, buff := List.replicate 16 0,
               last_cr_lf := none, pos := 0 } ∧
    (∀ p, p ≤ 6 → 6 < 16 →
      (∀ x ∈ (([13, 10, 79, 75, 13, 10, 0, 0, 0, 0, 0, 0, 0, 0, 0, 0] : List Nat).take 6).drop p,
        x ≠ 0) →
      c_string (([13, 10, 79, 75, 13, 10, 0, 0, 0, 0, 0, 0, 0, 0, 0, 0] : List Nat).drop p)
        = some ((([13, 10, 79, 75, 13, 10, 0, 0, 0, 0, 0, 0, 0, 0, 0, 0] : List Nat).take 6).drop p)) :=
  have hreach : at_reachable at_status_sample 16
      { status := 5, buff := [13, 10, 79, 75, 13, 10, 0, 0, 0, 0, 0, 0, 0, 0, 0, 0],
        last_cr_lf := some 0, pos := 6 } :=
    at_feed_reachable at_status_sample 16 [13, 10, 79, 75, 13, 10] _ _
      (List.replicate 5 WIFI_PROCESS_INCOMPLETE ++ [WIFI_PROCESS_COMPLETE])
      at_reachable.init rfl
  ⟨hreach, C19_zero_tail at_status_sample 16 _ hreach⟩

/-- C20, at the first byte of a response being a line feed: the end-of-line test reads
`buff[pos - 2]` with `pos = 1`, the index -1, which is outside the accumulation buffer. -/
theorem C20_first_byte_line_feed :
    at_eol_index (wifi_at_state at_status_sample 16) 10 = some (-1) ∧
    wifi_process_at_response at_status_sample (wifi_at_state at_status_sample 16) 10 = none := by
  decide

/-! ## Theorems: the ERROR line and the HTTP request -/

theorem at_text_run_error_token (c : at_status_t) (st : Nat) (H : List Nat)
    (hH : ∀ x ∈ H, x ≠ CR ∧ x ≠ LF ∧ x ≠ 0) :
    at_text_run c st none [] (H ++ [13, 10, 69, 82, 82, 79, 82])
      = (List.replicate (H.length + 7) WIFI_PROCESS_INCOMPLETE, st, some H.length) := by
  have e : H ++ [13, 10, 69, 82, 82, 79, 82] = (H ++ [13]) ++ ([10] ++ [69, 82, 82, 79, 82]) := by
    simp
  have h1 : ∀ d ∈ H ++ [13], d ≠ LF := by
    intro d hd
    rcases List.mem_append.mp hd with h | h
    · exact (hH d h).2.1
    · simp at h; simp [h, LF]
  have h2 : ∀ d ∈ [69, 82, 82, 79, 82], d ≠ LF := by decide
  have s1 : at_text_run c st none ([] ++ (H ++ [13])) [10]
      = ([WIFI_PROCESS_INCOMPLETE], st, some H.length) := by
    simp [at_text_run, at_text_step, LF, CR]
  have s3 : List.replicate (H.length + 7) WIFI_PROCESS_INCOMPLETE
      = List.replicate (H ++ [13]).length WIFI_PROCESS_INCOMPLETE
        ++ ([WIFI_PROCESS_INCOMPLETE]
          ++ List.replicate [69, 82, 82, 79, 82].length WIFI_PROCESS_INCOMPLETE) := by
    have e3 : H.length + 7 = (H ++ [13]).length + (1 + [69, 82, 82, 79, 82].length) := by
      simp only [List.length_append, List.length_cons, List.length_nil]
    rw [e3, List.replicate_add, List.replicate_add]
    rfl
  rw [e, at_text_run_append, at_text_run_other c _ st none [] h1, at_text_run_append, s1,
    at_text_run_other c _ _ _ _ h2, s3]

theorem at_text_run_error_close (c : at_status_t) (st : Nat) (H : List Nat) :
    at_text_run c st (some H.length) (H ++ [13, 10, 69, 82, 82, 79, 82]) [13, 10]
      = ([WIFI_PROCESS_INCOMPLETE, WIFI_PROCESS_COMPLETE], c.ERROR ||| c.READY,
          some H.length) := by
  have d1 : List.drop H.length (H ++ [13, 10, 69, 82, 82, 79, 82] ++ [13] ++ [10])
      = [13, 10, 69, 82, 82, 79, 82, 13, 10] := by
    rw [List.append_assoc, List.append_assoc]
    exact drop_length_append H _
  have g : (H ++ [13, 10, 69, 82, 82, 79, 82] ++ [13]).getLast? = some 13 :=
    List.getLast?_concat _
  have f1 : find_sub STR_OK [13, 10, 69, 82, 82, 79, 82, 13, 10] = none := by decide
  have f2 : find_sub STR_ERROR [13, 10, 69, 82, 82, 79, 82, 13, 10] = some 0 := by decide
  simp only [at_text_run, at_text_step_other c st _ _ 13 (by decide)]
  simp [at_text_step, LF, CR, g, d1, f1, f2]

/-- C15, as the code has it: for a header line `H` without CR, LF or NUL, every byte of
`H` followed by "\r\nERROR" returns WIFI_PROCESS_INCOMPLETE and leaves the status
AT_STATUS_CLEAR; the terminator is matched when the line that starts with ERROR is
closed: of the following "\r\n" the line feed returns WIFI_PROCESS_COMPLETE and sets
AT_STATUS_ERROR | AT_STATUS_READY. -/
theorem C15_error_needs_closing_crlf (c : at_status_t) (cap : Nat) (H : List Nat)
    (hH : ∀ x ∈ H, x ≠ CR ∧ x ≠ LF ∧ x ≠ 0) (hcap : H.length + 9 < cap) :
    at_feed c (wifi_at_state c cap) (H ++ [13, 10, 69, 82, 82, 79, 82])
      = some (List.replicate (H.length + 7) WIFI_PROCESS_INCOMPLETE,
          { status := c.CLEAR
            buff := H ++ [13, 10, 69, 82, 82, 79, 82] ++ List.replicate (cap - (H.length + 7)) 0
            last_cr_lf := some H.length
            pos := H.length + 7 }) ∧
    at_feed c
        { status := c.CLEAR
          buff := H ++ [13, 10, 69, 82, 82, 79, 82] ++ List.replicate (cap - (H.length + 7)) 0
          last_cr_lf := some H.length
          pos := H.length + 7 } [13, 10]
      = some ([WIFI_PROCESS_INCOMPLETE, WIFI_PROCESS_COMPLETE],
          { status := c.ERROR ||| c.READY
            buff := H ++ [13, 10, 69, 82, 82, 79, 82] ++ [13, 10]
              ++ List.replicate (cap - (H.length + 9)) 0
            last_cr_lf := some H.length
            pos := H.length + 9 }) := by
  obtain ⟨k, rfl⟩ : ∃ k, cap = k + (H.length + 9) + 1 := ⟨cap - (H.length + 10), by omega⟩
  have hlen : (H ++ [13, 10, 69, 82, 82, 79, 82]).length = H.length + 7 := by simp
  have hds : ∀ x ∈ H ++ [13, 10, 69, 82, 82, 79, 82], x ≠ 0 := by
    intro x hx
    rcases List.mem_append.mp hx with h | h
    · exact (hH x h).2.2
    · simp at h; omega
  have hhead : (H ++ [13, 10, 69, 82, 82, 79, 82]).head? ≠ some LF := by
    cases H with
    | nil => simp [LF]
    | cons x H => simpa using (hH x (by simp)).2.1
  have e1 : k + (H.length + 9) + 1 - (H.length + 7) = k + 3 := by omega
  have e2 : k + (H.length + 9) + 1 - (H.length + 9) = k + 1 := by omega
  rw [e1, e2]
  constructor
  · have h := at_feed_text c (H ++ [13, 10, 69, 82, 82, 79, 82]) c.CLEAR none [] (k + 2)
      (by simp) hds (by simp) (fun _ => hhead)
    simp only [List.nil_append, List.length_nil, Nat.zero_add,
      at_text_run_error_token c _ H hH, hlen] at h
    have e3 : k + 2 + (H.length + 7) + 1 = k + (H.length + 9) + 1 := by omega
    rw [e3] at h
    simpa [wifi_at_state] using h
  · have h := at_feed_text c [13, 10] c.CLEAR (some H.length)
      (H ++ [13, 10, 69, 82, 82, 79, 82]) k hds (by decide)
      (by intro p hp; have := Option.some.inj hp; rw [hlen]; omega)
      (by intro hnil; simp at hnil)
    simp only [at_text_run_error_close c _ H, hlen, List.length_cons, List.length_nil] at h
    have e4 : k + (0 + 1 + 1) + 1 = k + 3 := by omega
    rw [e4] at h
    rw [← hlen]
    simpa using h

theorem C15_error_needs_closing_crlf_witness :
    ((∀ x ∈ [120], x ≠ CR ∧ x ≠ LF ∧ x ≠ 0) ∧ [120].length + 9 < 16) ∧
    at_feed at_status_sample (wifi_at_state at_status_sample 16)
        ([120] ++ [13, 10, 69, 82, 82, 79, 82])
      = some (List.replicate ([120].length + 7) WIFI_PROCESS_INCOMPLETE,
          { status := at_status_sample.CLEAR
            buff := [120] ++ [13, 10, 69, 82, 82, 79, 82]
              ++ List.replicate (16 - ([120].length + 7)) 0
            last_cr_lf := some [120].length
            pos := [120].length + 7 }) ∧
    at_feed at_status_sample
        { status := at_status_sample.CLEAR
          buff := [120] ++ [13, 10, 69, 82, 82, 79, 82]
            ++ List.replicate (16 - ([120].length + 7)) 0
          last_cr_lf := some [120].length
          pos := [120].length + 7 } [13, 10]
      = some ([WIFI_PROCESS_INCOMPLETE, WIFI_PROCESS_COMPLETE],
          { status := at_status_sample.ERROR ||| at_status_sample.READY
            buff := [120] ++ [13, 10, 69, 82, 82, 79, 82] ++ [13, 10]
              ++ List.replicate (16 - ([120].length + 9)) 0
            last_cr_lf := some [120].length
            pos := [120].length + 9 }) :=
  ⟨⟨by decide, by decide⟩,
    C15_error_needs_closing_crlf at_status_sample 16 [120] (by decide) (by decide)⟩

/-- C15, the claim as written, fails: after "x\r\nERROR" every step has returned
WIFI_PROCESS_INCOMPLETE and the status is still AT_STATUS_CLEAR. -/
theorem C15_counterexample :
    ∃ a, at_feed at_status_sample (wifi_at_state at_status_sample 16)
        [120, 13, 10, 69, 82, 82, 79, 82]
      = some (List.replicate 8 WIFI_PROCESS_INCOMPLETE, a) ∧
    a.status = at_status_sample.CLEAR ∧
    a.status ≠ at_status_sample.ERROR ||| at_status_sample.READY :=
  ⟨_, rfl, rfl, by decide⟩

theorem at_reachable_outcome (c : at_status_t) (cap : Nat) (a : wifi_at_t)
    (hc : c.flags_distinct) (hr : at_reachable c cap a) (herr : a.status &&& c.ERROR ≠ 0) :
    a.status &&& c.OK = 0 := by
  obtain ⟨h0, hok, _, hoe, hor, hof, her, hef, hfr⟩ := hc
  have heo : c.ERROR &&& c.OK = 0 := by rw [Nat.and_comm]; exact hoe
  have hre : c.READY &&& c.ERROR = 0 := by rw [Nat.and_comm]; exact her
  have hro : c.READY &&& c.OK = 0 := by rw [Nat.and_comm]; exact hor
  have hfe : c.FAST_PROCESS &&& c.ERROR = 0 := by rw [Nat.and_comm]; exact hef
  have hfo : c.FAST_PROCESS &&& c.OK = 0 := by rw [Nat.and_comm]; exact hof
  rcases at_reachable_status c cap a hr with h | h | h | h | h | h
  · rw [h, h0]; simp
  · rw [h, h0, Nat.zero_or]; exact hfo
  · rw [h] at herr; exact absurd (or_and_eq_zero _ _ _ hoe hre) herr
  · rw [h, Nat.or_assoc] at herr
    exact absurd (or_and_eq_zero _ _ _ hoe (or_and_eq_zero _ _ _ hre hfe)) herr
  · rw [h]; exact or_and_eq_zero _ _ _ heo hro
  · rw [h, Nat.or_assoc]; exact or_and_eq_zero _ _ _ heo (or_and_eq_zero _ _ _ hro hfo)

/-- C14: for every session state that the session can reach and in which AT_STATUS_READY
and AT_STATUS_ERROR are set, `wifi_http_get_request` returns 0 whatever the buffer holds;
in every state with AT_STATUS_READY set the result is that of `wifi_http_parse_status`
when AT_STATUS_OK is set and 0 when it is not. -/
theorem C14_error_gives_zero (c : at_status_t) (cap : Nat) (a : wifi_at_t)
    (stack : List Nat) (hc : c.flags_distinct) (hr : at_reachable c cap a)
    (hready : a.status &&& c.READY ≠ 0) :
    (a.status &&& c.ERROR ≠ 0 → wifi_http_get_request c a stack = some 0) ∧
    (a.status &&& c.OK ≠ 0 →
      wifi_http_get_request c a stack = wifi_http_parse_status a.buff stack) ∧
    (a.status &&& c.OK = 0 → wifi_http_get_request c a stack = some 0) := by
  have h3 : a.status &&& c.OK = 0 → wifi_http_get_request c a stack = some 0 := by
    intro h
    unfold wifi_http_get_request
    rw [if_neg hready, if_neg (by simp [h])]
  refine ⟨fun herr => h3 (at_reachable_outcome c cap a hc hr herr), ?_, h3⟩
  intro hok
  unfold wifi_http_get_request
  rw [if_neg hready, if_pos hok]

/-! ## Theorems: the indication parser -/

/-- The status is not read by `wifi_process_at_response`: with another status the step
takes the same path, and an incomplete step hands the status on. -/
theorem at_step_status_free (c : at_status_t) (a : wifi_at_t) (st : Nat) (d : Nat) :
    wifi_process_at_response c { a with status := st } d
      = match wifi_process_at_response c a d with
        | none => none
        | some (WIFI_PROCESS_COMPLETE, a1) => some (WIFI_PROCESS_COMPLETE, a1)
        | some (WIFI_PROCESS_INCOMPLETE, a1) =>
          some (WIFI_PROCESS_INCOMPLETE, { a1 with status := st }) := by
  unfold wifi_process_at_response
  simp only
  by_cases h1 : a.pos < a.buff.length
  · simp only [if_pos h1]
    by_cases h2 : d = LF
    · subst h2
      simp only [if_true]
      by_cases h3 : a.pos + 1 < 2
      · simp only [if_pos h3]
      · simp only [if_neg h3]
        cases h4 : (a.buff.set a.pos LF)[a.pos + 1 - 2]? with
        | none => rfl
        | some prev =>
          simp only
          by_cases h5 : prev = CR
          · simp only [if_pos h5]
            cases h6 : a.last_cr_lf with
            | none => rfl
            | some p =>
              simp only
              cases h7 : strstr (a.buff.set a.pos LF) p STR_OK with
              | none => rfl
              | some o =>
                cases o with
                | some i => rfl
                | none =>
                  simp only
                  cases h8 : strstr (a.buff.set a.pos LF) p STR_ERROR with
                  | none => rfl
                  | some o2 =>
                    cases o2 with
                    | some i => rfl
                    | none => rfl
          · simp only [if_neg h5]
    · simp only [if_neg h2]
  · simp only [if_neg h1]

theorem at_step_incomplete_status (c : at_status_t) (a a1 : wifi_at_t) (d : Nat)
    (h : wifi_process_at_response c a d = some (WIFI_PROCESS_INCOMPLETE, a1)) :
    a1.status = a.status := by
  unfold wifi_process_at_response at h
  simp only at h
  repeat' split at h
  all_goals first
    | (cases h; done)
    | (cases h; rfl)

theorem tick_loop_nul (c : at_status_t) (w : wifi_wind_ids) (b : wifi_state_bits)
    (k : wifi_bttn_ids) (rest : List Nat) (s : wifi_sys) :
    wifi_sys_tick_loop c w b k (0 :: rest) s = (1, some { s with wifi_rb := rest }) := by
  simp [wifi_sys_tick_loop]

theorem tick_loop_async (c : at_status_t) (w : wifi_wind_ids) (b : wifi_state_bits)
    (k : wifi_bttn_ids) (d : Nat) (rest : List Nat) (s : wifi_sys) (hd : d ≠ 0)
    (hmode : s.wifi_recv_state = recv_async_indication) :
    wifi_sys_tick_loop c w b k (d :: rest) s
      = (1, (wifi_sys_byte c w b k s d).map (fun s1 => { s1 with wifi_rb := rest })) := by
  simp only [wifi_sys_tick_loop, wifi_sys_byte, if_neg hd, hmode]
  cases wifi_process_async_response s.tmp_buffer s.async d with
  | none => rfl
  | some r1 =>
    obtain ⟨r, buff, st⟩ := r1
    cases r with
    | WIFI_PROCESS_INCOMPLETE => rfl
    | WIFI_PROCESS_COMPLETE =>
      simp only
      cases wifi_process_wind w b s.wifi_state buff with
      | none => rfl
      | some r2 =>
        obtain ⟨is_wind, state⟩ := r2
        simp only
        cases is_wind with
        | true => rfl
        | false =>
          simp only [Bool.false_eq_true, if_false]
          cases wifi_process_bttn_indication k buff with
          | none => rfl
          | some _ => rfl

theorem tick_loop_at (c : at_status_t) (w : wifi_wind_ids) (b : wifi_state_bits)
    (k : wifi_bttn_ids) (d : Nat) (rest : List Nat) (s : wifi_sys) (hd : d ≠ 0)
    (hmode : s.wifi_recv_state = recv_at_response) :
    wifi_sys_tick_loop c w b k (d :: rest) s
      = match wifi_process_at_response c s.wifi_at_state d with
        | none => (1, none)
        | some (WIFI_PROCESS_COMPLETE, a) =>
          (1, some { s with wifi_rb := rest, wifi_at_state := a,
                            wifi_recv_state := recv_async_indication })
        | some (WIFI_PROCESS_INCOMPLETE, a) =>
          if a.status &&& c.FAST_PROCESS ≠ 0 then
            ((wifi_sys_tick_loop c w b k rest { s with wifi_at_state := a }).1 + 1,
             (wifi_sys_tick_loop c w b k rest { s with wifi_at_state := a }).2)
          else (1, some { s with wifi_rb := rest, wifi_at_state := a }) := by
  simp only [wifi_sys_tick_loop, if_neg hd, hmode]

theorem sys_byte_at (c : at_status_t) (w : wifi_wind_ids) (b : wifi_state_bits)
    (k : wifi_bttn_ids) (d : Nat) (s : wifi_sys) (hd : d ≠ 0)
    (hmode : s.wifi_recv_state = recv_at_response) :
    wifi_sys_byte c w b k s d
      = match wifi_process_at_response c s.wifi_at_state d with
        | none => none
        | some (WIFI_PROCESS_COMPLETE, a) =>
          some { s with wifi_at_state := a, wifi_recv_state := recv_async_indication }
        | some (WIFI_PROCESS_INCOMPLETE, a) => some { s with wifi_at_state := a } := by
  simp only [wifi_sys_byte, if_neg hd, hmode]

/-- The pops of one invocation: at least one, at most one more than the queue holds. -/
theorem tick_loop_pops (c : at_status_t) (w : wifi_wind_ids) (b : wifi_state_bits)
    (k : wifi_bttn_ids) (q : List Nat) :
    ∀ s : wifi_sys, 1 ≤ (wifi_sys_tick_loop c w b k q s).1 ∧
      (wifi_sys_tick_loop c w b k q s).1 ≤ q.length + 1 := by
  induction q with
  | nil => intro s; simp [wifi_sys_tick_loop]
  | cons d rest ih =>
    intro s
    by_cases hd : d = 0
    · subst hd; rw [tick_loop_nul]; simp
    · cases hmode : s.wifi_recv_state with
      | recv_async_indication => rw [tick_loop_async c w b k d rest s hd hmode]; simp
      | recv_at_response =>
        rw [tick_loop_at c w b k d rest s hd hmode]
        cases wifi_process_at_response c s.wifi_at_state d with
        | none => simp
        | some r1 =>
          obtain ⟨r, a⟩ := r1
          cases r with
          | WIFI_PROCESS_COMPLETE => simp
          | WIFI_PROCESS_INCOMPLETE =>
            simp only
            by_cases hf : a.status &&& c.FAST_PROCESS ≠ 0
            · rw [if_pos hf]
              have := ih { s with wifi_at_state := a }
              simp only [List.length_cons]
              omega
            · rw [if_neg hf]; simp

/-- C18: one invocation of `wifi_sys_tick_handler` on a queue of n bytes performs at
least one and at most n + 1 pops, and exactly one pop when the routing mode is the
indication mode or AT_STATUS_FAST_PROCESS is not set in the session status. -/
theorem C18_tick_pops_bounded (c : at_status_t) (w : wifi_wind_ids) (b : wifi_state_bits)
    (k : wifi_bttn_ids) (s : wifi_sys) :
    1 ≤ (wifi_sys_tick_handler c w b k s).1 ∧
    (wifi_sys_tick_handler c w b k s).1 ≤ s.wifi_rb.length + 1 ∧
    ((s.wifi_recv_state = recv_async_indication ∨
        s.wifi_at_state.status &&& c.FAST_PROCESS = 0) →
      (wifi_sys_tick_handler c w b k s).1 = 1) := by
  refine ⟨(tick_loop_pops c w b k s.wifi_rb s).1, (tick_loop_pops c w b k s.wifi_rb s).2, ?_⟩
  intro h
  unfold wifi_sys_tick_handler
  cases hq : s.wifi_rb with
  | nil => simp [wifi_sys_tick_loop]
  | cons d rest =>
    by_cases hd : d = 0
    · subst hd; rw [tick_loop_nul]
    · cases hmode : s.wifi_recv_state with
      | recv_async_indication => rw [tick_loop_async c w b k d rest s hd hmode]
      | recv_at_response =>
        have hfast : s.wifi_at_state.status &&& c.FAST_PROCESS = 0 := by
          rcases h with h | h
          · rw [hmode] at h; cases h
          · exact h
        rw [tick_loop_at c w b k d rest s hd hmode]
        cases hs : wifi_process_at_response c s.wifi_at_state d with
        | none => rfl
        | some r1 =>
          obtain ⟨r, a⟩ := r1
          cases r with
          | WIFI_PROCESS_COMPLETE => rfl
          | WIFI_PROCESS_INCOMPLETE =>
            simp only
            have := at_step_incomplete_status c _ a d hs
            rw [if_neg (by rw [this, hfast]; simp)]

theorem sys_byte_async (c : at_status_t) (w : wifi_wind_ids) (b : wifi_state_bits)
    (k : wifi_bttn_ids) (d : Nat) (s : wifi_sys) (hd : d ≠ 0)
    (hmode : s.wifi_recv_state = recv_async_indication) :
    wifi_sys_byte c w b k s d
      = match wifi_process_async_response s.tmp_buffer s.async d with
        | none => none
        | some (WIFI_PROCESS_INCOMPLETE, buff, st) =>
          some { s with tmp_buffer := buff, async := st }
        | some (WIFI_PROCESS_COMPLETE, buff, st) =>
          match wifi_process_wind w b s.wifi_state buff with
          | none => none
          | some (is_wind, state) =>
            if is_wind then
              some { s with tmp_buffer := List.replicate buff.length 0, async := st,
                            wifi_state := state }
            else
              match wifi_process_bttn_indication k buff with
              | none => none
              | some _ =>
                some { s with tmp_buffer := List.replicate buff.length 0, async := st,
                              wifi_state := state } := by
  simp only [wifi_sys_byte, if_neg hd, hmode]

/-- `wifi_sys_byte` passes on the fields it does not use: the queue and, in the
indication mode, the session. -/
theorem sys_byte_frame (c : at_status_t) (w : wifi_wind_ids) (b : wifi_state_bits)
    (k : wifi_bttn_ids) (d : Nat) (s : wifi_sys) (q : List Nat) :
    wifi_sys_byte c w b k { s with wifi_rb := q } d
      = (wifi_sys_byte c w b k s d).map (fun s1 => { s1 with wifi_rb := q }) := by
  have hcase : s.wifi_recv_state = recv_async_indication ∨
      s.wifi_recv_state = recv_at_response := by
    cases s.wifi_recv_state <;> simp
  by_cases hd : d = 0
  · simp [wifi_sys_byte, hd]
  · rcases hcase with hmode | hmode
    · rw [sys_byte_async c w b k d s hd hmode,
        sys_byte_async c w b k d { s with wifi_rb := q } hd hmode]
      simp only
      cases wifi_process_async_response s.tmp_buffer s.async d with
      | none => rfl
      | some r1 =>
        obtain ⟨r, buff, st⟩ := r1
        cases r with
        | WIFI_PROCESS_INCOMPLETE => rfl
        | WIFI_PROCESS_COMPLETE =>
          simp only
          cases wifi_process_wind w b s.wifi_state buff with
          | none => rfl
          | some r2 =>
            obtain ⟨is_wind, state⟩ := r2
            cases is_wind with
            | true => rfl
            | false =>
              simp only [Bool.false_eq_true, if_false]
              cases wifi_process_bttn_indication k buff with
              | none => rfl
              | some _ => rfl
    · rw [sys_byte_at c w b k d s hd hmode, sys_byte_at c w b k d { s with wifi_rb := q } hd hmode]
      simp only
      cases wifi_process_at_response c s.wifi_at_state d with
      | none => rfl
      | some r1 =>
        obtain ⟨r, a⟩ := r1
        cases r with
        | WIFI_PROCESS_COMPLETE => rfl
        | WIFI_PROCESS_INCOMPLETE => rfl

theorem sys_bytes_frame (c : at_status_t) (w : wifi_wind_ids) (b : wifi_state_bits)
    (k : wifi_bttn_ids) (ds : List Nat) :
    ∀ (s : wifi_sys) (q : List Nat),
      wifi_sys_bytes c w b k { s with wifi_rb := q } ds
        = (wifi_sys_bytes c w b k s ds).map (fun s1 => { s1 with wifi_rb := q }) := by
  induction ds with
  | nil => intro s q; rfl
  | cons d ds ih =>
    intro s q
    simp only [wifi_sys_bytes, sys_byte_frame]
    cases wifi_sys_byte c w b k s d with
    | none => rfl
    | some s1 => simp only [Option.map_some']; exact ih s1 q

theorem sys_bytes_append (c : at_status_t) (w : wifi_wind_ids) (b : wifi_state_bits)
    (k : wifi_bttn_ids) (ds es : List Nat) :
    ∀ s : wifi_sys,
      wifi_sys_bytes c w b k s (ds ++ es)
        = match wifi_sys_bytes c w b k s ds with
          | none => none
          | some s1 => wifi_sys_bytes c w b k s1 es := by
  induction ds with
  | nil => intro s; rfl
  | cons d ds ih =>
    intro s
    simp only [List.cons_append, wifi_sys_bytes, List.append_eq]
    cases wifi_sys_byte c w b k s d with
    | none => rfl
    | some s1 => simp only; exact ih s1

/-- One invocation handles a prefix of the queue, byte after byte in the order of the
queue, and leaves the rest queued. -/
theorem tick_loop_bytes (c : at_status_t) (w : wifi_wind_ids) (b : wifi_state_bits)
    (k : wifi_bttn_ids) (q : List Nat) :
    ∀ s : wifi_sys, ∃ m, m ≤ q.length ∧ (q ≠ [] → 1 ≤ m) ∧
      (wifi_sys_tick_loop c w b k q s).2
        = (wifi_sys_bytes c w b k s (q.take m)).map (fun s1 => { s1 with wifi_rb := q.drop m }) := by
  induction q with
  | nil => intro s; exact ⟨0, by simp, by simp, rfl⟩
  | cons d rest ih =>
    intro s
    by_cases hd : d = 0
    · subst hd
      exact ⟨1, by simp, by simp, by simp [tick_loop_nul, wifi_sys_bytes, wifi_sys_byte]⟩
    · cases hmode : s.wifi_recv_state with
      | recv_async_indication =>
        refine ⟨1, by simp, by simp, ?_⟩
        rw [tick_loop_async c w b k d rest s hd hmode]
        simp only [List.take_succ_cons, List.take_zero, wifi_sys_bytes, List.drop_succ_cons,
          List.drop_zero]
        cases wifi_sys_byte c w b k s d with
        | none => rfl
        | some s1 => rfl
      | recv_at_response =>
        rw [tick_loop_at c w b k d rest s hd hmode]
        cases hs : wifi_process_at_response c s.wifi_at_state d with
        | none =>
          refine ⟨1, by simp, by simp, ?_⟩
          simp [wifi_sys_bytes, sys_byte_at c w b k d s hd hmode, hs]
        | some r1 =>
          obtain ⟨r, a⟩ := r1
          cases r with
          | WIFI_PROCESS_COMPLETE =>
            refine ⟨1, by simp, by simp, ?_⟩
            simp [wifi_sys_bytes, sys_byte_at c w b k d s hd hmode, hs]
          | WIFI_PROCESS_INCOMPLETE =>
            simp only
            by_cases hf : a.status &&& c.FAST_PROCESS ≠ 0
            · rw [if_pos hf]
              obtain ⟨m, hm, _, hrec⟩ := ih { s with wifi_at_state := a }
              refine ⟨m + 1, by simp; omega, by simp, ?_⟩
              simp only [List.take_succ_cons, List.drop_succ_cons, wifi_sys_bytes,
                sys_byte_at c w b k d s hd hmode, hs]
              exact hrec
            · rw [if_neg hf]
              refine ⟨1, by simp, by simp, ?_⟩
              simp [wifi_sys_bytes, sys_byte_at c w b k d s hd hmode, hs]

theorem sys_rb_self (s : wifi_sys) (h : s.wifi_rb = []) : { s with wifi_rb := [] } = s := by
  cases s
  simp only at h
  subst h
  rfl

/-- Draining the queue handles all its bytes one after the other, in their order. -/
theorem drain_bytes (c : at_status_t) (w : wifi_wind_ids) (b : wifi_state_bits)
    (k : wifi_bttn_ids) (n : Nat) :
    ∀ s : wifi_sys, s.wifi_rb.length ≤ n →
      wifi_sys_drain c w b k n s
        = (wifi_sys_bytes c w b k s s.wifi_rb).map (fun s1 => { s1 with wifi_rb := [] }) := by
  induction n with
  | zero =>
    intro s hn
    have hq : s.wifi_rb = [] := List.length_eq_zero.mp (by omega)
    simp [wifi_sys_drain, hq, wifi_sys_bytes, sys_rb_self s hq]
  | succ n ih =>
    intro s hn
    by_cases hq : s.wifi_rb = []
    · simp [wifi_sys_drain, hq, wifi_sys_bytes, sys_rb_self s hq]
    · rw [wifi_sys_drain, if_neg hq]
      obtain ⟨m, hm, hm1, hrec⟩ := tick_loop_bytes c w b k s.wifi_rb s
      have hm1 := hm1 hq
      unfold wifi_sys_tick_handler
      rw [hrec]
      have hsplit : s.wifi_rb = s.wifi_rb.take m ++ s.wifi_rb.drop m :=
        (List.take_append_drop m s.wifi_rb).symm
      conv_rhs => rw [hsplit, sys_bytes_append]
      cases wifi_sys_bytes c w b k s (s.wifi_rb.take m) with
      | none => rfl
      | some s1 =>
        simp only [Option.map_some']
        rw [ih { s1 with wifi_rb := s.wifi_rb.drop m } (by simp; omega)]
        simp only [sys_bytes_frame]
        cases wifi_sys_bytes c w b k s1 (s.wifi_rb.drop m) with
        | none => rfl
        | some s2 => rfl

theorem tick_loop_frame (c : at_status_t) (w : wifi_wind_ids) (b : wifi_state_bits)
    (k : wifi_bttn_ids) (q : List Nat) :
    ∀ (s : wifi_sys) (x : List Nat),
      wifi_sys_tick_loop c w b k q { s with wifi_rb := x } = wifi_sys_tick_loop c w b k q s := by
  induction q with
  | nil => intro s x; rfl
  | cons d rest ih =>
    intro s x
    have hcase : s.wifi_recv_state = recv_async_indication ∨
        s.wifi_recv_state = recv_at_response := by
      cases s.wifi_recv_state <;> simp
    by_cases hd : d = 0
    · subst hd; rw [tick_loop_nul, tick_loop_nul]
    · rcases hcase with hmode | hmode
      · rw [tick_loop_async c w b k d rest s hd hmode,
          tick_loop_async c w b k d rest { s with wifi_rb := x } hd hmode, sys_byte_frame]
        cases wifi_sys_byte c w b k s d with
        | none => rfl
        | some s1 => rfl
      · rw [tick_loop_at c w b k d rest s hd hmode,
          tick_loop_at c w b k d rest { s with wifi_rb := x } hd hmode]
        simp only
        cases wifi_process_at_response c s.wifi_at_state d with
        | none => rfl
        | some r1 =>
          obtain ⟨r, a⟩ := r1
          cases r with
          | WIFI_PROCESS_COMPLETE => rfl
          | WIFI_PROCESS_INCOMPLETE =>
            simp only
            have e := ih { s with wifi_at_state := a } x
            by_cases hf : a.status &&& c.FAST_PROCESS ≠ 0
            · rw [if_pos hf, if_pos hf]
              exact congrArg (fun r => (r.1 + 1, r.2)) e
            · rw [if_neg hf, if_neg hf]

/-- C17, as the code has it: in the response mode, with the byte `d` at the head of the
queue.  When the step on `d` completes the response, the invocation switches to the
indication mode and returns after this one pop, the rest of the queue left as it is,
whether AT_STATUS_FAST_PROCESS was set or not.  When the step is incomplete and the flag
is set, the same invocation goes on with the rest of the queue; when the flag is not set
it returns. -/
theorem C17_fast_loop (c : at_status_t) (w : wifi_wind_ids) (b : wifi_state_bits)
    (k : wifi_bttn_ids) (s : wifi_sys) (d : Nat) (rest : List Nat) (r : wifi_process_t)
    (a : wifi_at_t) (hq : s.wifi_rb = d :: rest) (hd : d ≠ 0)
    (hmode : s.wifi_recv_state = recv_at_response)
    (hstep : wifi_process_at_response c s.wifi_at_state d = some (r, a)) :
    (r = WIFI_PROCESS_COMPLETE →
      wifi_sys_tick_handler c w b k s
        = (1, some { s with wifi_rb := rest, wifi_at_state := a,
                            wifi_recv_state := recv_async_indication })) ∧
    (r = WIFI_PROCESS_INCOMPLETE → a.status &&& c.FAST_PROCESS ≠ 0 →
      wifi_sys_tick_handler c w b k s
        = ((wifi_sys_tick_handler c w b k { s with wifi_rb := rest, wifi_at_state := a }).1 + 1,
           (wifi_sys_tick_handler c w b k { s with wifi_rb := rest, wifi_at_state := a }).2)) ∧
    (r = WIFI_PROCESS_INCOMPLETE → a.status &&& c.FAST_PROCESS = 0 →
      wifi_sys_tick_handler c w b k s
        = (1, some { s with wifi_rb := rest, wifi_at_state := a })) := by
  unfold wifi_sys_tick_handler
  rw [hq, tick_loop_at c w b k d rest s hd hmode, hstep]
  refine ⟨?_, ?_, ?_⟩
  · intro hr; subst hr; rfl
  · intro hr hf; subst hr
    simp only
    rw [if_pos hf]
    have e := tick_loop_frame c w b k rest { s with wifi_at_state := a } rest
    exact congrArg (fun r => (r.1 + 1, r.2)) e.symm
  · intro hr hf; subst hr
    simp only
    rw [if_neg (by simp [hf])]

theorem C17_fast_loop_witness :
    (([10, 120] : List Nat) = 10 :: [120] ∧ (10 : Nat) ≠ 0 ∧
      wifi_process_at_response at_status_sample
        { status := 8, buff := [13, 10, 79, 75, 13, 0, 0, 0, 0, 0, 0, 0, 0, 0, 0, 0],
          last_cr_lf := some 0, pos := 5 } 10
        = some (WIFI_PROCESS_COMPLETE,
            { status := 5, buff := [13, 10, 79, 75, 13, 10, 0, 0, 0, 0, 0, 0, 0, 0, 0, 0],
              last_cr_lf := some 0, pos := 6 })) ∧
    wifi_sys_tick_handler at_status_sample wifi_wind_sample wifi_state_sample wifi_bttn_sample
        { wifi_rb := [10, 120], tmp_buffer := List.replicate 8 0, async := async_init,
          wifi_at_state :=
            { status := 8, buff := [13, 10, 79, 75, 13, 0, 0, 0, 0, 0, 0, 0, 0, 0, 0, 0],
              last_cr_lf := some 0, pos := 5 },
          wifi_state := 0, wifi_recv_state := recv_at_response }
      = (1, some
          { wifi_rb := [120], tmp_buffer := List.replicate 8 0, async := async_init,
            wifi_at_state :=
              { status := 5, buff := [13, 10, 79, 75, 13, 10, 0, 0, 0, 0, 0, 0, 0, 0, 0, 0],
                last_cr_lf := some 0, pos := 6 },
            wifi_state := 0, wifi_recv_state := recv_async_indication }) :=
  ⟨⟨rfl, by decide, by decide⟩,
    (C17_fast_loop at_status_sample wifi_wind_sample wifi_state_sample wifi_bttn_sample
      { wifi_rb := [10, 120], tmp_buffer := List.replicate 8 0, async := async_init,
        wifi_at_state :=
          { status := 8, buff := [13, 10, 79, 75, 13, 0, 0, 0, 0, 0, 0, 0, 0, 0, 0, 0],
            last_cr_lf := some 0, pos := 5 },
        wifi_state := 0, wifi_recv_state := recv_at_response }
      10 [120] WIFI_PROCESS_COMPLETE
      { status := 5, buff := [13, 10, 79, 75, 13, 10, 0, 0, 0, 0, 0, 0, 0, 0, 0, 0],
        last_cr_lf := some 0, pos := 6 }
      rfl (by decide) rfl (by decide)).1 rfl⟩

/-- C17, the claim as written, fails: the session holds "\r\nOK\r" with
AT_STATUS_FAST_PROCESS set and the queue holds a line feed and one more byte.  The line
feed completes the response (Ok|Ready), and the invocation returns after that single pop
with the other byte still queued. -/
theorem C17_counterexample :
    at_feed at_status_sample
        { wifi_at_state at_status_sample 16 with
          status := at_status_sample.CLEAR ||| at_status_sample.FAST_PROCESS }
        [13, 10, 79, 75, 13]
      = some (List.replicate 5 WIFI_PROCESS_INCOMPLETE,
          { status := 8, buff := [13, 10, 79, 75, 13, 0, 0, 0, 0, 0, 0, 0, 0, 0, 0, 0],
            last_cr_lf := some 0, pos := 5 }) ∧
    (8 : Nat) &&& at_status_sample.FAST_PROCESS ≠ 0 ∧
    wifi_sys_tick_handler at_status_sample wifi_wind_sample wifi_state_sample wifi_bttn_sample
        { wifi_rb := [10, 120], tmp_buffer := List.replicate 8 0, async := async_init,
          wifi_at_state :=
            { status := 8, buff := [13, 10, 79, 75, 13, 0, 0, 0, 0, 0, 0, 0, 0, 0, 0, 0],
              last_cr_lf := some 0, pos := 5 },
          wifi_state := 0, wifi_recv_state := recv_at_response }
      = (1, some
          { wifi_rb := [120], tmp_buffer := List.replicate 8 0, async := async_init,
            wifi_at_state :=
              { status := at_status_sample.OK ||| at_status_sample.READY,
                buff := [13, 10, 79, 75, 13, 10, 0, 0, 0, 0, 0, 0, 0, 0, 0, 0],
                last_cr_lf := some 0, pos := 6 },
            wifi_state := 0, wifi_recv_state := recv_async_indication }) := by
  decide

theorem C18_tick_pops_bounded_witness :
    ((recv_at_response = recv_async_indication ∨
        (0 : Nat) &&& at_status_sample.FAST_PROCESS = 0)) ∧
    1 ≤ (wifi_sys_tick_handler at_status_sample wifi_wind_sample wifi_state_sample
        wifi_bttn_sample
        { wifi_rb := [13, 10, 79], tmp_buffer := List.replicate 8 0, async := async_init,
          wifi_at_state := wifi_at_state at_status_sample 16,
          wifi_state := 0, wifi_recv_state := recv_at_response }).1 ∧
    (wifi_sys_tick_handler at_status_sample wifi_wind_sample wifi_state_sample
        wifi_bttn_sample
        { wifi_rb := [13, 10, 79], tmp_buffer := List.replicate 8 0, async := async_init,
          wifi_at_state := wifi_at_state at_status_sample 16,
          wifi_state := 0, wifi_recv_state := recv_at_response }).1
      ≤ ([13, 10, 79] : List Nat).length + 1 ∧
    (wifi_sys_tick_handler at_status_sample wifi_wind_sample wifi_state_sample
        wifi_bttn_sample
        { wifi_rb := [13, 10, 79], tmp_buffer := List.replicate 8 0, async := async_init,
          wifi_at_state := wifi_at_state at_status_sample 16,
          wifi_state := 0, wifi_recv_state := recv_at_response }).1 = 1 :=
  ⟨Or.inr (by decide),
    (C18_tick_pops_bounded at_status_sample wifi_wind_sample wifi_state_sample wifi_bttn_sample
      { wifi_rb := [13, 10, 79], tmp_buffer := List.replicate 8 0, async := async_init,
        wifi_at_state := wifi_at_state at_status_sample 16,
        wifi_state := 0, wifi_recv_state := recv_at_response }).1,
    (C18_tick_pops_bounded at_status_sample wifi_wind_sample wifi_state_sample wifi_bttn_sample
      { wifi_rb := [13, 10, 79], tmp_buffer := List.replicate 8 0, async := async_init,
        wifi_at_state := wifi_at_state at_status_sample 16,
        wifi_state := 0, wifi_recv_state := recv_at_response }).2.1,
    (C18_tick_pops_bounded at_status_sample wifi_wind_sample wifi_state_sample wifi_bttn_sample
      { wifi_rb := [13, 10, 79], tmp_buffer := List.replicate 8 0, async := async_init,
        wifi_at_state := wifi_at_state at_status_sample 16,
        wifi_state := 0, wifi_recv_state := recv_at_response }).2.2 (Or.inr (by decide))⟩

/-- A byte is handled the same way by two states that differ only in bits of the session
status outside Ok, Error and Ready. -/
theorem sys_byte_outcome (c : at_status_t) (w : wifi_wind_ids) (b : wifi_state_bits)
    (k : wifi_bttn_ids) (d : Nat) (s0 s1 : wifi_sys) (h : s0.outcome c = s1.outcome c) :
    (wifi_sys_byte c w b k s0 d).map (wifi_sys.outcome c)
      = (wifi_sys_byte c w b k s1 d).map (wifi_sys.outcome c) := by
  obtain ⟨rb0, tmp0, as0, ⟨st0, bf0, l0, p0⟩, ws0, rs0⟩ := s0
  obtain ⟨rb1, tmp1, as1, ⟨st1, bf1, l1, p1⟩, ws1, rs1⟩ := s1
  simp only [wifi_sys.outcome, wifi_sys.mk.injEq, wifi_at_t.mk.injEq] at h
  obtain ⟨rfl, rfl, rfl, ⟨hst, rfl, rfl, rfl⟩, rfl, rfl⟩ := h
  by_cases hd : d = 0
  · simp [wifi_sys_byte, hd, wifi_sys.outcome, hst]
  · cases rs0 with
    | recv_async_indication =>
      rw [sys_byte_async c w b k d _ hd rfl, sys_byte_async c w b k d _ hd rfl]
      simp only
      cases wifi_process_async_response tmp0 as0 d with
      | none => rfl
      | some r1 =>
        obtain ⟨r, buff, st⟩ := r1
        cases r with
        | WIFI_PROCESS_INCOMPLETE => simp [wifi_sys.outcome, hst]
        | WIFI_PROCESS_COMPLETE =>
          simp only
          cases wifi_process_wind w b ws0 buff with
          | none => rfl
          | some r2 =>
            obtain ⟨is_wind, state⟩ := r2
            cases is_wind with
            | true => simp [wifi_sys.outcome, hst]
            | false =>
              simp only [Bool.false_eq_true, if_false]
              cases wifi_process_bttn_indication k buff with
              | none => rfl
              | some _ => simp [wifi_sys.outcome, hst]
    | recv_at_response =>
      rw [sys_byte_at c w b k d _ hd rfl, sys_byte_at c w b k d _ hd rfl]
      simp only
      have e := at_step_status_free c { status := st0, buff := bf0, last_cr_lf := l0, pos := p0 }
        st1 d
      simp only at e
      rw [e]
      cases hs : wifi_process_at_response c
          { status := st0, buff := bf0, last_cr_lf := l0, pos := p0 } d with
      | none => rfl
      | some r1 =>
        obtain ⟨r, a⟩ := r1
        cases r with
        | WIFI_PROCESS_COMPLETE => rfl
        | WIFI_PROCESS_INCOMPLETE =>
          have hst0 := at_step_incomplete_status c _ a d hs
          simp only at hst0
          simp [wifi_sys.outcome, hst0, hst]

theorem sys_bytes_outcome (c : at_status_t) (w : wifi_wind_ids) (b : wifi_state_bits)
    (k : wifi_bttn_ids) (ds : List Nat) :
    ∀ s0 s1 : wifi_sys, s0.outcome c = s1.outcome c →
      (wifi_sys_bytes c w b k s0 ds).map (wifi_sys.outcome c)
        = (wifi_sys_bytes c w b k s1 ds).map (wifi_sys.outcome c) := by
  induction ds with
  | nil => intro s0 s1 h; simp [wifi_sys_bytes, h]
  | cons d ds ih =>
    intro s0 s1 h
    have hb := sys_byte_outcome c w b k d s0 s1 h
    simp only [wifi_sys_bytes]
    cases h0 : wifi_sys_byte c w b k s0 d with
    | none =>
      cases h1 : wifi_sys_byte c w b k s1 d with
      | none => rfl
      | some t1 => rw [h0, h1] at hb; simp at hb
    | some t0 =>
      cases h1 : wifi_sys_byte c w b k s1 d with
      | none => rw [h0, h1] at hb; simp at hb
      | some t1 =>
        rw [h0, h1] at hb
        simp only [Option.map_some', Option.some.injEq] at hb
        exact ih t0 t1 hb

theorem fast_flag_outcome (c : at_status_t) (hc : c.flags_distinct) (st : Nat) :
    (st ||| c.FAST_PROCESS) &&& (c.OK ||| c.ERROR ||| c.READY)
      = st &&& (c.OK ||| c.ERROR ||| c.READY) := by
  obtain ⟨_, _, _, _, _, hof, _, hef, hfr⟩ := hc
  have hz : c.FAST_PROCESS &&& (c.OK ||| c.ERROR ||| c.READY) = 0 := by
    rw [Nat.and_comm]
    exact or_and_eq_zero _ _ _ (or_and_eq_zero _ _ _ hof hef) (by rw [Nat.and_comm]; exact hfr)
  rw [Nat.and_comm, Nat.and_or_distrib_left, Nat.and_comm _ c.FAST_PROCESS, hz, Nat.or_zero,
    Nat.and_comm]

/-- C13: invoking `wifi_sys_tick_handler` until the queue is empty handles the queued
bytes one after the other in their order, and with AT_STATUS_FAST_PROCESS or-ed into the
session status it leaves the same state: buffers, positions, boundary, the Ok, Error and
Ready bits of the status, routing mode, indication buffer and link state. -/
theorem C13_fast_process_same_result (c : at_status_t) (w : wifi_wind_ids)
    (b : wifi_state_bits) (k : wifi_bttn_ids) (s : wifi_sys) (hc : c.flags_distinct) :
    wifi_sys_drain c w b k s.wifi_rb.length s
      = (wifi_sys_bytes c w b k s s.wifi_rb).map (fun s1 => { s1 with wifi_rb := [] }) ∧
    (wifi_sys_drain c w b k s.wifi_rb.length
        { s with wifi_at_state :=
            { s.wifi_at_state with status := s.wifi_at_state.status ||| c.FAST_PROCESS } }).map
        (wifi_sys.outcome c)
      = (wifi_sys_drain c w b k s.wifi_rb.length s).map (wifi_sys.outcome c) := by
  refine ⟨drain_bytes c w b k _ s (Nat.le_refl _), ?_⟩
  have h0 : wifi_sys.outcome c
      { s with wifi_at_state :=
          { s.wifi_at_state with status := s.wifi_at_state.status ||| c.FAST_PROCESS } }
      = wifi_sys.outcome c s := by
    simp only [wifi_sys.outcome, fast_flag_outcome c hc]
  have hb := sys_bytes_outcome c w b k s.wifi_rb _ _ h0
  rw [drain_bytes c w b k _ s (Nat.le_refl _),
    drain_bytes c w b k s.wifi_rb.length
      { s with wifi_at_state :=
          { s.wifi_at_state with status := s.wifi_at_state.status ||| c.FAST_PROCESS } }
      (Nat.le_refl _)]
  simp only
  cases h1 : wifi_sys_bytes c w b k
      { s with wifi_at_state :=
          { s.wifi_at_state with status := s.wifi_at_state.status ||| c.FAST_PROCESS } }
      s.wifi_rb with
  | none =>
    cases h2 : wifi_sys_bytes c w b k s s.wifi_rb with
    | none => rfl
    | some t2 => rw [h1, h2] at hb; simp at hb
  | some t1 =>
    cases h2 : wifi_sys_bytes c w b k s s.wifi_rb with
    | none => rw [h1, h2] at hb; simp at hb
    | some t2 =>
      rw [h1, h2] at hb
      simp only [Option.map_some', Option.some.injEq] at hb ⊢
      simp only [wifi_sys.outcome, wifi_sys.mk.injEq] at hb ⊢
      obtain ⟨_, h3, h4, h5, h6, h7⟩ := hb
      exact ⟨trivial, h3, h4, h5, h6, h7⟩

theorem C13_fast_process_same_result_witness :
    at_status_sample.flags_distinct ∧
    (wifi_sys_drain at_status_sample wifi_wind_sample wifi_state_sample wifi_bttn_sample
        wifi_sys_sample.wifi_rb.length wifi_sys_sample
      = (wifi_sys_bytes at_status_sample wifi_wind_sample wifi_state_sample wifi_bttn_sample
          wifi_sys_sample wifi_sys_sample.wifi_rb).map (fun s1 => { s1 with wifi_rb := [] }) ∧
    (wifi_sys_drain at_status_sample wifi_wind_sample wifi_state_sample wifi_bttn_sample
        wifi_sys_sample.wifi_rb.length
        { wifi_sys_sample with wifi_at_state :=
            { wifi_sys_sample.wifi_at_state with
              status := wifi_sys_sample.wifi_at_state.status
                ||| at_status_sample.FAST_PROCESS } }).map
        (wifi_sys.outcome at_status_sample)
      = (wifi_sys_drain at_status_sample wifi_wind_sample wifi_state_sample wifi_bttn_sample
          wifi_sys_sample.wifi_rb.length wifi_sys_sample).map
          (wifi_sys.outcome at_status_sample)) ∧
    wifi_sys_drain at_status_sample wifi_wind_sample wifi_state_sample wifi_bttn_sample
        wifi_sys_sample.wifi_rb.length wifi_sys_sample
      = some
          { wifi_rb := []
            tmp_buffer := List.replicate 20 0
            async := async_init
            wifi_at_state :=
              { status := 5, buff := [13, 10, 79, 75, 13, 10, 0, 0, 0, 0, 0, 0, 0, 0, 0, 0],
                last_cr_lf := some 0, pos := 6 }
            wifi_state := 7
            wifi_recv_state := recv_async_indication } :=
  ⟨by decide,
    C13_fast_process_same_result at_status_sample wifi_wind_sample wifi_state_sample
      wifi_bttn_sample wifi_sys_sample (by decide),
    by decide⟩

theorem C14_error_gives_zero_witness :
    (at_status_sample.flags_distinct ∧
      at_reachable at_status_sample 24
        { status := 6
          buff := [72, 84, 84, 80, 47, 49, 46, 48, 32, 50, 48, 48, 13, 10, 69, 82, 82, 79, 82,
            13, 10, 0, 0, 0]
          last_cr_lf := some 12, pos := 21 } ∧
      (6 : Nat) &&& at_status_sample.READY ≠ 0 ∧ (6 : Nat) &&& at_status_sample.ERROR ≠ 0) ∧
    wifi_http_get_request at_status_sample
        { status := 6
          buff := [72, 84, 84, 80, 47, 49, 46, 48, 32, 50, 48, 48, 13, 10, 69, 82, 82, 79, 82,
            13, 10, 0, 0, 0]
          last_cr_lf := some 12, pos := 21 } [0]
      = some 0 :=
  have hreach : at_reachable at_status_sample 24
      { status := 6
        buff := [72, 84, 84, 80, 47, 49, 46, 48, 32, 50, 48, 48, 13, 10, 69, 82, 82, 79, 82,
          13, 10, 0, 0, 0]
        last_cr_lf := some 12, pos := 21 } :=
    at_feed_reachable at_status_sample 24
      [72, 84, 84, 80, 47, 49, 46, 48, 32, 50, 48, 48, 13, 10, 69, 82, 82, 79, 82, 13, 10] _ _
      (List.replicate 20 WIFI_PROCESS_INCOMPLETE ++ [WIFI_PROCESS_COMPLETE])
      at_reachable.init rfl
  ⟨⟨by decide, hreach, by decide, by decide⟩,
    (C14_error_gives_zero at_status_sample 24 _ [0] (by decide) hreach (by decide)).1
      (by decide)⟩

end OpenBttn
